import Mathlib

/-!
Record/replay gateway (`toolkit/recordreplay/ProcessRecordReplay.cpp`).

A shallow embedding of the filter engine, the checkpoint state machine, the
crash-note stack, the ordered-lock and gating entry points, the stable hash
table functions, the binding of entry points, the completion of a recording
and the navigation events of the gateway, followed by the properties proved
about them.

Conventions of the embedding:
* a C string is the list of its characters before the terminating NUL;
* `unsigned` values are natural numbers, `int` values are integers, and the
  conversion from `int` to `unsigned` reduces modulo `2^32`;
* the gateway's globals are the fields of `Gateway`; every call that leaves the
  file (a driver entry point, a `js::` helper) is appended to `Gateway.trace`;
* a call through an unresolved (null) entry point and a failed
  `MOZ_RELEASE_ASSERT` end the run with `Outcome.crashed`;
* memory allocation (`std::string`, `InfallibleVector::append`,
  `Vector::append`) always succeeds;
* a `void*` or function pointer argument is the natural number of its address,
  and a value returned by the driver is an argument `driverResult` of the
  function that receives it.
-/

namespace RecordReplay

/-! ## Filter engine -/

/-- A C string: its characters up to, not including, the terminating NUL. -/
abbrev CStr := List Char

/-- The `JSFilter` record: a file name and an `unsigned` line range. -/
structure JSFilter where
  mFilename : CStr
  mStartLine : Nat := 0
  mEndLine : Nat := 0
deriving DecidableEq, Repr

/-- The libc `strchr(s, c)` for a character `c` other than NUL: the offset of the
first occurrence of `c` in `s`, or `none` for the null pointer. -/
def strchr : CStr → Char → Option Nat
  | [], _ => none
  | x :: xs, c => if x = c then some 0 else (strchr xs c).map (· + 1)

/-- Whether `needle` is read at the very start of `hay`. -/
def startsWith : CStr → CStr → Bool
  | _, [] => true
  | [], _ :: _ => false
  | h :: hs, n :: ns => h == n && startsWith hs ns

/-- The libc `strstr(hay, needle)`: the offset of the first occurrence of
`needle` in `hay`, or `none` for the null pointer. -/
def strstr : CStr → CStr → Option Nat
  | [], needle => if needle.isEmpty then some 0 else none
  | h :: hs, needle =>
    if startsWith (h :: hs) needle then some 0 else (strstr hs needle).map (· + 1)

/-- The libc `isspace` in the C locale. -/
def isspace (c : Char) : Bool :=
  c == ' ' || c == '\t' || c == '\n' || c == '\x0b' || c == '\x0c' || c == '\r'

/-- The libc `isdigit`. -/
def isdigit (c : Char) : Bool :=
  decide ('0'.toNat ≤ c.toNat) && decide (c.toNat ≤ '9'.toNat)

/-- The digit loop of `atoi`: accumulates the leading decimal digits. -/
def digitsValue : Nat → CStr → Nat
  | acc, [] => acc
  | acc, c :: cs =>
    if isdigit c then digitsValue (acc * 10 + (c.toNat - '0'.toNat)) cs else acc

/-- The libc `atoi`: skips white space, reads an optional sign and the leading
decimal digits. The C standard leaves the result undefined when the value does
not fit an `int`; here the mathematical value is kept. -/
def atoi (s : CStr) : Int :=
  match s.dropWhile isspace with
  | '-' :: r => - (digitsValue 0 r : Int)
  | '+' :: r => (digitsValue 0 r : Int)
  | r => (digitsValue 0 r : Int)

/-- The conversion of an `int` to `unsigned` (32 bits). -/
def toUnsigned (i : Int) : Nat := (i % 4294967296).toNat

/-- The `while (true)` loop of `ParseJSFilters` on the rest `value` of the
specification; `none` when the fuel runs out before the loop breaks. The
`PrintLog` call is not part of the embedding. -/
def ParseJSFiltersLoop : Nat → CStr → List JSFilter → Option (List JSFilter)
  | 0, _, _ => none
  | fuel + 1, value, aFilters =>
    match strchr value '@' with
    | none => some aFilters
    | some e1 =>
      let mFilename := value.take e1
      let value := value.drop (e1 + 1)
      match strchr value '@' with
      | none => some aFilters
      | some e2 =>
        let mStartLine := toUnsigned (atoi value)
        let value := value.drop (e2 + 1)
        let mEndLine := toUnsigned (atoi value)
        let aFilters := aFilters ++ [JSFilter.mk mFilename mStartLine mEndLine]
        match strchr value '@' with
        | none => some aFilters
        | some e3 => ParseJSFiltersLoop fuel (value.drop (e3 + 1)) aFilters

/-- The function `ParseJSFilters(aEnv, aFilters)`; `getenv` is the process
environment. The result is the vector `aFilters` after the call. -/
def ParseJSFilters (getenv : CStr → Option CStr) (aEnv : CStr)
    (aFilters : List JSFilter) : Option (List JSFilter) :=
  match getenv aEnv with
  | none => some aFilters
  | some value =>
    let aFilters :=
      if value = ['*'] then aFilters ++ [JSFilter.mk value 0 0] else aFilters
    ParseJSFiltersLoop (value.length + 1) value aFilters

/-- The function `FilterMatches(aFilters, aFilename, aLine)`. -/
def FilterMatches : List JSFilter → CStr → Nat → Bool
  | [], _, _ => false
  | filter :: rest, aFilename, aLine =>
    if filter.mFilename = ['*'] then true
    else if (strstr aFilename filter.mFilename).isSome
        && decide (aLine ≥ filter.mStartLine)
        && decide (aLine ≤ filter.mEndLine) then true
    else FilterMatches rest aFilename aLine

/-- The specification string of a list of triples: all the fields, the line
numbers written in decimal, joined with `@`. -/
def joinFields (triples : List (CStr × Nat × Nat)) : CStr :=
  List.intercalate ['@']
    (triples.flatMap fun t => [t.1, (Nat.repr t.2.1).toList, (Nat.repr t.2.2).toList])

/-- An environment holding the single variable `name` with value `value`. -/
def singleEnv (name value : CStr) : CStr → Option CStr :=
  fun n => if n = name then some value else none

/-! ## Gateway state, driver calls and outcomes -/

/-- A call that leaves the file: a `js::` helper of the control channel or a
call through a resolved driver entry point, with its arguments. A `const char*`
argument that may be null is an `Option`. -/
inductive Effect where
  | EnsureModuleInitialized
  | SendRecordingUnsupported (aReason : CStr)
  | MaybeSendRecordingUnusable
  | NewCheckpoint
  | RememberRecording
  | CreateOrderedLock (aName : CStr)
  | OrderedLock (aLock : Int)
  | OrderedUnlock (aLock : Int)
  | SetCrashNote (aNote : Option CStr)
  | BeginPassThroughEvents
  | EndPassThroughEvents
  | AreEventsPassedThrough
  | BeginDisallowEvents
  | EndDisallowEvents
  | AreEventsDisallowed
  | HasDivergedFromRecording
  | AllowSideEffects
  | IsRecordingCreated
  | GetRecordingId
  | WaitForRecordingCreated
  | SendRecordingFinished
  | FinishRecording
  | OnNavigationEvent (aKind : Option CStr) (aUrl : CStr)
  | NewStableHashTable (aTable aKeyEqualsEntry aPrivate : Nat)
  | MoveStableHashTable (aTableSrc aTableDst : Nat)
  | DeleteStableHashTable (aTable : Nat)
  | LookupStableHashCode (aTable aKey aUnstableHashCode : Nat)
  | StableHashTableAddEntryForLastLookup (aTable aEntry : Nat)
  | StableHashTableMoveEntry (aTable aEntrySrc aEntryDst : Nat)
  | StableHashTableDeleteEntry (aTable aEntry : Nat)
deriving DecidableEq, Repr

/-- The ways a run ends without returning to the caller. -/
inductive Fatal where
  | releaseAssert
  | nullCall
  | mozCrash
  | abort
deriving DecidableEq, Repr

/-- The globals of the gateway. A driver entry point `g...` is `true` when it
is resolved and `false` when it is null; `gRecordingUnsupported` is `none` when
null; `gCrashNotes` has its top at the end; `trace` lists, oldest first, the
calls made so far to the driver and to the control channel. -/
structure Gateway where
  gIsRecordingOrReplaying : Bool := false
  gRecordingUnsupported : Option CStr := none
  gRecordAllContent : Bool := false
  gHasCheckpoint : Bool := false
  gCrashNotes : List (Option CStr) := []
  gRecordReplayNewCheckpoint : Bool := false
  gRememberRecording : Bool := false
  gCreateOrderedLock : Bool := false
  gOrderedLock : Bool := false
  gOrderedUnlock : Bool := false
  gSetCrashNote : Bool := false
  trace : List Effect := []
  gUploadingRecording : Bool := false
  gTearingDown : Bool := false
  gLastLocationURL : CStr := []
  gBeginPassThroughEvents : Bool := false
  gEndPassThroughEvents : Bool := false
  gAreEventsPassedThrough : Bool := false
  gBeginDisallowEvents : Bool := false
  gEndDisallowEvents : Bool := false
  gAreEventsDisallowed : Bool := false
  gHasDivergedFromRecording : Bool := false
  gAllowSideEffects : Bool := false
  gOnNavigationEvent : Bool := false
  gGetRecordingId : Bool := false
  gIsRecordingCreated : Bool := false
  gWaitForRecordingCreated : Bool := false
  gFinishRecording : Bool := false
  gNewStableHashTable : Bool := false
  gMoveStableHashTable : Bool := false
  gDeleteStableHashTable : Bool := false
  gLookupStableHashCode : Bool := false
  gStableHashTableAddEntryForLastLookup : Bool := false
  gStableHashTableMoveEntry : Bool := false
  gStableHashTableDeleteEntry : Bool := false
deriving DecidableEq, Repr

/-- How a gateway operation ends: it returns a value in a new state, or the
process is terminated in the state reached. -/
inductive Outcome (α : Type) where
  | returned (value : α) (s : Gateway)
  | crashed (why : Fatal) (s : Gateway)
deriving DecidableEq, Repr

/-- Sequencing of two operations: the second runs when the first returns. -/
def Outcome.andThen {α β : Type} (o : Outcome α) (f : α → Gateway → Outcome β) :
    Outcome β :=
  match o with
  | .returned a s => f a s
  | .crashed why s => .crashed why s

/-- Appends one call to the trace. -/
def Gateway.emit (s : Gateway) (e : Effect) : Gateway :=
  { s with trace := s.trace ++ [e] }

/-- A call through a driver entry point that returns nothing: recorded when the
entry point is resolved, fatal when it is null. -/
def callEntry (resolved : Bool) (e : Effect) (s : Gateway) : Outcome Unit :=
  if resolved then .returned () (s.emit e) else .crashed .nullCall s

/-- The inline `IsRecordingOrReplaying()` of the header. -/
def IsRecordingOrReplaying (s : Gateway) : Bool := s.gIsRecordingOrReplaying

/-! ## Ordered locks -/

/-- The function `RecordReplayCreateOrderedLock(aName)`; `driverResult` is the
handle the driver returns if it is called. -/
def RecordReplayCreateOrderedLock (driverResult : Int) (aName : CStr)
    (s : Gateway) : Outcome Int :=
  if s.gCreateOrderedLock then
    .returned driverResult (s.emit (.CreateOrderedLock aName))
  else
    .returned 0 s

/-- The function `RecordReplayOrderedLock(aLock)`. -/
def RecordReplayOrderedLock (aLock : Int) (s : Gateway) : Outcome Unit :=
  if s.gOrderedLock then callEntry s.gOrderedLock (.OrderedLock aLock) s
  else .returned () s

/-- The function `RecordReplayOrderedUnlock(aLock)`. -/
def RecordReplayOrderedUnlock (aLock : Int) (s : Gateway) : Outcome Unit :=
  if s.gOrderedUnlock then callEntry s.gOrderedUnlock (.OrderedUnlock aLock) s
  else .returned () s

/-- One call of the three guarded ordered-lock functions. -/
inductive LockOp where
  | create (driverResult : Int) (aName : CStr)
  | lock (aLock : Int)
  | unlock (aLock : Int)
deriving DecidableEq, Repr

/-- Runs one ordered-lock call; the value is the handle returned by a `create`
and `none` for the two `void` functions. -/
def LockOp.run : LockOp → Gateway → Outcome (Option Int)
  | .create r aName, s =>
    (RecordReplayCreateOrderedLock r aName s).andThen fun h s1 => .returned (some h) s1
  | .lock aLock, s =>
    (RecordReplayOrderedLock aLock s).andThen fun _ s1 => .returned none s1
  | .unlock aLock, s =>
    (RecordReplayOrderedUnlock aLock s).andThen fun _ s1 => .returned none s1

/-- Runs a sequence of ordered-lock calls, collecting the returned values. -/
def runLockOps : List LockOp → Gateway → Outcome (List (Option Int))
  | [], s => .returned [] s
  | op :: ops, s =>
    (op.run s).andThen fun v s1 =>
      (runLockOps ops s1).andThen fun vs s2 => .returned (v :: vs) s2

/-! ## Crash-note stack -/

/-- The function `RecordReplayInterface_InternalPushCrashNote(aNote)`;
`isMainThread` is the value of `NS_IsMainThread()`. The allocation made by
`Vector::append` is taken to succeed. -/
def RecordReplayInterface_InternalPushCrashNote (isMainThread : Bool)
    (aNote : Option CStr) (s : Gateway) : Outcome Unit :=
  if isMainThread then
    let s1 := { s with gCrashNotes := s.gCrashNotes ++ [aNote] }
    if s1.gSetCrashNote then callEntry s1.gSetCrashNote (.SetCrashNote aNote) s1
    else .returned () s1
  else
    .returned () s

/-- The value of `gCrashNotes.length() ? gCrashNotes.back() : nullptr`. -/
def backOrNull (notes : List (Option CStr)) : Option CStr :=
  if notes.length ≠ 0 then
    match notes.getLast? with
    | some top => top
    | none => none
  else none

/-- The function `RecordReplayInterface_InternalPopCrashNote()`. -/
def RecordReplayInterface_InternalPopCrashNote (isMainThread : Bool)
    (s : Gateway) : Outcome Unit :=
  if isMainThread then
    if s.gCrashNotes.length = 0 then .crashed .releaseAssert s
    else
      let s1 := { s with gCrashNotes := s.gCrashNotes.dropLast }
      if s1.gSetCrashNote then
        callEntry s1.gSetCrashNote (.SetCrashNote (backOrNull s1.gCrashNotes)) s1
      else .returned () s1
  else
    .returned () s

/-- One call on the crash-note stack. -/
inductive CrashNoteOp where
  | push (aNote : Option CStr)
  | pop
deriving DecidableEq, Repr

/-- Runs one crash-note call. -/
def CrashNoteOp.run (isMainThread : Bool) : CrashNoteOp → Gateway → Outcome Unit
  | .push aNote, s => RecordReplayInterface_InternalPushCrashNote isMainThread aNote s
  | .pop, s => RecordReplayInterface_InternalPopCrashNote isMainThread s

/-- Runs a sequence of crash-note calls, stopping at the first fatal one. -/
def runCrashNoteOps (isMainThread : Bool) : List CrashNoteOp → Gateway → Outcome Unit
  | [], s => .returned () s
  | op :: ops, s =>
    (op.run isMainThread s).andThen fun _ s1 => runCrashNoteOps isMainThread ops s1

/-- The argument of the most recent `gSetCrashNote` call of a trace, if any. -/
def lastForwarded : List Effect → Option (Option CStr)
  | [] => none
  | e :: es =>
    match lastForwarded es with
    | some v => some v
    | none =>
      match e with
      | .SetCrashNote aNote => some aNote
      | _ => none

/-! ## Checkpoint state machine -/

/-- The function `RememberRecording()`. -/
def RememberRecording (s : Gateway) : Outcome Unit :=
  callEntry s.gRememberRecording .RememberRecording s

/-- The function `HasCheckpoint()`. -/
def HasCheckpoint (s : Gateway) : Bool := s.gHasCheckpoint

/-- The function `CreateCheckpoint()`. The helpers `js::EnsureModuleInitialized`,
`js::SendRecordingUnsupported` and `js::MaybeSendRecordingUnusable` belong to the
control channel; each call of one is recorded in the trace and returns. -/
def CreateCheckpoint (s : Gateway) : Outcome Unit :=
  if !IsRecordingOrReplaying s then
    match s.gRecordingUnsupported with
    | some aReason =>
      .returned () ((s.emit .EnsureModuleInitialized).emit (.SendRecordingUnsupported aReason))
    | none => .returned () s
  else
    let s1 := (s.emit .EnsureModuleInitialized).emit .MaybeSendRecordingUnusable
    (callEntry s1.gRecordReplayNewCheckpoint .NewCheckpoint s1).andThen fun _ s2 =>
      let s3 := { s2 with gHasCheckpoint := true }
      if !s3.gRecordAllContent then RememberRecording s3 else .returned () s3

/-- The function `MaybeCreateCheckpoint()`. -/
def MaybeCreateCheckpoint (s : Gateway) : Outcome Unit :=
  if HasCheckpoint s then callEntry s.gRecordReplayNewCheckpoint .NewCheckpoint s
  else .returned () s

/-- Calls `op` `n` times in a row, stopping at the first fatal call. -/
def repeatCall (op : Gateway → Outcome Unit) : Nat → Gateway → Outcome Unit
  | 0, s => .returned () s
  | n + 1, s => (op s).andThen fun _ s1 => repeatCall op n s1

/-- The states after each of `n` successive calls of `op`, up to the first
fatal call. -/
def callHistory (op : Gateway → Outcome Unit) : Nat → Gateway → List Gateway
  | 0, _ => []
  | n + 1, s =>
    match op s with
    | .returned _ s1 => s1 :: callHistory op n s1
    | .crashed _ _ => []

/-- The number of steps from `false` (NoCheckpoint) to `true` (HasCheckpoint)
along a sequence of checkpoint flags. -/
def risingEdges : List Bool → Nat
  | false :: true :: rest => risingEdges (true :: rest) + 1
  | _ :: b :: rest => risingEdges (b :: rest)
  | _ => 0

/-- The number of checkpoint requests in a trace. -/
def checkpointRequests (t : List Effect) : Nat := t.count .NewCheckpoint

/-- The number of remember-recording requests in a trace. -/
def rememberRequests (t : List Effect) : Nat := t.count .RememberRecording

/-- The number of recording-unsupported reports in a trace. -/
def unsupportedReports (t : List Effect) : Nat :=
  (t.filter fun e => match e with
    | .SendRecordingUnsupported _ => true
    | _ => false).length

/-! ## Forwarding functions, recording state and completion -/

/-- A call through a driver entry point that returns `driverResult`: recorded
when the entry point is resolved, fatal when it is null. -/
def callEntryFor {α : Type} (resolved : Bool) (driverResult : α) (e : Effect)
    (s : Gateway) : Outcome α :=
  if resolved then .returned driverResult (s.emit e) else .crashed .nullCall s

/-- The function `RecordReplayInterface_InternalBeginPassThroughThreadEvents()`. -/
def RecordReplayInterface_InternalBeginPassThroughThreadEvents (s : Gateway) : Outcome Unit :=
  callEntry s.gBeginPassThroughEvents .BeginPassThroughEvents s

/-- The function `RecordReplayInterface_InternalEndPassThroughThreadEvents()`. -/
def RecordReplayInterface_InternalEndPassThroughThreadEvents (s : Gateway) : Outcome Unit :=
  callEntry s.gEndPassThroughEvents .EndPassThroughEvents s

/-- The function `RecordReplayInterface_InternalAreThreadEventsPassedThrough()`. -/
def RecordReplayInterface_InternalAreThreadEventsPassedThrough (driverResult : Bool)
    (s : Gateway) : Outcome Bool :=
  callEntryFor s.gAreEventsPassedThrough driverResult .AreEventsPassedThrough s

/-- The function `RecordReplayInterface_InternalBeginDisallowThreadEvents()`. -/
def RecordReplayInterface_InternalBeginDisallowThreadEvents (s : Gateway) : Outcome Unit :=
  callEntry s.gBeginDisallowEvents .BeginDisallowEvents s

/-- The function `RecordReplayInterface_InternalEndDisallowThreadEvents()`. -/
def RecordReplayInterface_InternalEndDisallowThreadEvents (s : Gateway) : Outcome Unit :=
  callEntry s.gEndDisallowEvents .EndDisallowEvents s

/-- The function `RecordReplayInterface_InternalAreThreadEventsDisallowed()`. -/
def RecordReplayInterface_InternalAreThreadEventsDisallowed (driverResult : Bool)
    (s : Gateway) : Outcome Bool :=
  callEntryFor s.gAreEventsDisallowed driverResult .AreEventsDisallowed s

/-- The function `RecordReplayInterface_InternalHasDivergedFromRecording()`. -/
def RecordReplayInterface_InternalHasDivergedFromRecording (driverResult : Bool)
    (s : Gateway) : Outcome Bool :=
  callEntryFor s.gHasDivergedFromRecording driverResult .HasDivergedFromRecording s

/-- The function `RecordReplayInterface_InternalAllowSideEffects()`. -/
def RecordReplayInterface_InternalAllowSideEffects (driverResult : Bool)
    (s : Gateway) : Outcome Bool :=
  callEntryFor s.gAllowSideEffects driverResult .AllowSideEffects s

/-- The function `RecordReplayInterface_InternalCreateOrderedLock(aName)`. -/
def RecordReplayInterface_InternalCreateOrderedLock (driverResult : Int) (aName : CStr)
    (s : Gateway) : Outcome Int :=
  callEntryFor s.gCreateOrderedLock driverResult (.CreateOrderedLock aName) s

/-- The function `RecordReplayInterface_InternalOrderedLock(aLock)`. -/
def RecordReplayInterface_InternalOrderedLock (aLock : Int) (s : Gateway) : Outcome Unit :=
  callEntry s.gOrderedLock (.OrderedLock aLock) s

/-- The function `RecordReplayInterface_InternalOrderedUnlock(aLock)`. -/
def RecordReplayInterface_InternalOrderedUnlock (aLock : Int) (s : Gateway) : Outcome Unit :=
  callEntry s.gOrderedUnlock (.OrderedUnlock aLock) s

/-- The function `IsRecordingCreated()`. -/
def IsRecordingCreated (driverResult : Bool) (s : Gateway) : Outcome Bool :=
  callEntryFor s.gIsRecordingCreated driverResult .IsRecordingCreated s

/-- The function `IsUploadingRecording()`. -/
def IsUploadingRecording (s : Gateway) : Bool := s.gUploadingRecording

/-- The function `GetRecordingId()`; the driver returns a `const char*`. -/
def GetRecordingId (driverResult : Option CStr) (s : Gateway) : Outcome (Option CStr) :=
  callEntryFor s.gGetRecordingId driverResult .GetRecordingId s

/-- The function `FinishRecording()`. The value of `gWaitForRecordingCreated()` is
dropped; `js::SendRecordingFinished` belongs to the control channel and is
recorded in the trace; the `PrintLog` call is not part of the embedding; the
final `abort()` ends the run. -/
def FinishRecording (s : Gateway) : Outcome Unit :=
  (callEntry s.gWaitForRecordingCreated .WaitForRecordingCreated s).andThen fun _ s1 =>
    let s2 := s1.emit .SendRecordingFinished
    (callEntry s2.gFinishRecording .FinishRecording s2).andThen fun _ s3 =>
      .crashed .abort { s3 with gTearingDown := true }

/-- The function `IsTearingDownProcess()`. -/
def IsTearingDownProcess (s : Gateway) : Bool := s.gTearingDown

/-! ## Stable hash tables -/

/-- The function `NewStableHashTable(aTable, aKeyEqualsEntry, aPrivate)`. -/
def NewStableHashTable (aTable aKeyEqualsEntry aPrivate : Nat) (s : Gateway) : Outcome Unit :=
  if IsRecordingOrReplaying s then
    callEntry s.gNewStableHashTable (.NewStableHashTable aTable aKeyEqualsEntry aPrivate) s
  else .returned () s

/-- The function `MoveStableHashTable(aTableSrc, aTableDst)`. -/
def MoveStableHashTable (aTableSrc aTableDst : Nat) (s : Gateway) : Outcome Unit :=
  if IsRecordingOrReplaying s then
    callEntry s.gMoveStableHashTable (.MoveStableHashTable aTableSrc aTableDst) s
  else .returned () s

/-- The function `DeleteStableHashTable(aTable)`. -/
def DeleteStableHashTable (aTable : Nat) (s : Gateway) : Outcome Unit :=
  if IsRecordingOrReplaying s then
    callEntry s.gDeleteStableHashTable (.DeleteStableHashTable aTable) s
  else .returned () s

/-- The function `LookupStableHashCode(aTable, aKey, aUnstableHashCode,
aFoundMatch)`; `driverResult` is the hash code the driver returns together with
the flag it stores through `aFoundMatch`. -/
def LookupStableHashCode (driverResult : Nat × Bool) (aTable aKey aUnstableHashCode : Nat)
    (s : Gateway) : Outcome (Nat × Bool) :=
  if !IsRecordingOrReplaying s then .crashed .releaseAssert s
  else
    callEntryFor s.gLookupStableHashCode driverResult
      (.LookupStableHashCode aTable aKey aUnstableHashCode) s

/-- The function `StableHashTableAddEntryForLastLookup(aTable, aEntry)`. -/
def StableHashTableAddEntryForLastLookup (aTable aEntry : Nat) (s : Gateway) : Outcome Unit :=
  if IsRecordingOrReplaying s then
    callEntry s.gStableHashTableAddEntryForLastLookup
      (.StableHashTableAddEntryForLastLookup aTable aEntry) s
  else .returned () s

/-- The function `StableHashTableMoveEntry(aTable, aEntrySrc, aEntryDst)`. -/
def StableHashTableMoveEntry (aTable aEntrySrc aEntryDst : Nat) (s : Gateway) : Outcome Unit :=
  if IsRecordingOrReplaying s then
    callEntry s.gStableHashTableMoveEntry
      (.StableHashTableMoveEntry aTable aEntrySrc aEntryDst) s
  else .returned () s

/-- The function `StableHashTableDeleteEntry(aTable, aEntry)`. -/
def StableHashTableDeleteEntry (aTable aEntry : Nat) (s : Gateway) : Outcome Unit :=
  if IsRecordingOrReplaying s then
    callEntry s.gStableHashTableDeleteEntry (.StableHashTableDeleteEntry aTable aEntry) s
  else .returned () s

/-- Whether the seven stable-hash entry points of the driver are resolved. -/
def Gateway.stableHashResolved (s : Gateway) : Bool :=
  s.gNewStableHashTable && s.gMoveStableHashTable && s.gDeleteStableHashTable
    && s.gLookupStableHashCode && s.gStableHashTableAddEntryForLastLookup
    && s.gStableHashTableMoveEntry && s.gStableHashTableDeleteEntry

/-! ## Binding an entry point -/

/-- The function `LoadSymbolInternal(name, psym, aOptional)`. `dlsym` gives the
address the driver module exports under a name (`dlsym`/`GetProcAddress` on
`gDriverHandle`), `none` for null. The result is the value stored in `*psym`
when the call returns, or the fatal `MOZ_CRASH()`; the message written to
`stderr` before it is not part of the embedding. -/
def LoadSymbolInternal (dlsym : CStr → Option Nat) (name : CStr) (aOptional : Bool) :
    Except Fatal (Option Nat) :=
  let psym := dlsym name
  if psym.isNone && !aOptional then .error .mozCrash else .ok psym

/-! ## Navigation events -/

/-- The `nsIURI` argument as `OnLocationChange` uses it: the result of `GetSpec`
(`none` when it returns a failure code) and the method `SchemeIs`. -/
structure nsIURI where
  GetSpec : Option CStr
  SchemeIs : CStr → Bool

/-- The function `OnLocationChange(aChild, aLocation, aFlags)`; `aChild` is not
read. The constant `nsIWebProgressListener::LOCATION_CHANGE_SAME_DOCUMENT` is
declared outside this file and is the first argument. -/
def OnLocationChange (LOCATION_CHANGE_SAME_DOCUMENT : Nat) (aLocation : nsIURI)
    (aFlags : Nat) (s : Gateway) : Outcome Unit :=
  if !s.gHasCheckpoint then .returned () s
  else
    match aLocation.GetSpec with
    | none => .returned () s
    | some url =>
      let afterBootstrap (s1 : Gateway) : Outcome Unit :=
        if aLocation.SchemeIs "about".toList then .returned () s1
        else if (aFlags &&& LOCATION_CHANGE_SAME_DOCUMENT) != 0
            && s1.gLastLocationURL == url then .returned () s1
        else
          (callEntry s1.gOnNavigationEvent (.OnNavigationEvent none url) s1).andThen
            fun _ s2 => .returned () { s2 with gLastLocationURL := url }
      if s.gLastLocationURL.isEmpty then
        if url != "about:blank".toList then .returned () s
        else afterBootstrap { s with gLastLocationURL := url }
      else afterBootstrap s

/-- A location with the spec `https://replay.io/`, whose scheme is `https`. -/
def replayLocation : nsIURI :=
  { GetSpec := some "https://replay.io/".toList
    SchemeIs := fun aScheme => aScheme == "https".toList }

/-! ## Event gating: the driver's counters -/

/-- Modelled from the spec: the gating state of the driver for one thread, "a
pair of non-negative nesting counters (pass-through depth, disallow depth)";
the driver that keeps them is loaded at run time and is not among the sources. -/
structure DriverGating where
  passThroughDepth : Nat := 0
  disallowDepth : Nat := 0
deriving DecidableEq, Repr

/-- Modelled from the spec: the driver's `RecordReplayBeginPassThroughEvents`,
which opens one more pass-through scope. -/
def DriverGating.BeginPassThroughEvents (d : DriverGating) : DriverGating :=
  { d with passThroughDepth := d.passThroughDepth + 1 }

/-- Modelled from the spec: the driver's `RecordReplayEndPassThroughEvents`, which
closes one pass-through scope; "negative depth is a programming error", so there
is no result when no scope is open. -/
def DriverGating.EndPassThroughEvents (d : DriverGating) : Option DriverGating :=
  if d.passThroughDepth = 0 then none
  else some { d with passThroughDepth := d.passThroughDepth - 1 }

/-- Modelled from the spec: the driver's `RecordReplayAreEventsPassedThrough`:
"currently passed through means pass-through depth > 0". -/
def DriverGating.AreEventsPassedThrough (d : DriverGating) : Bool :=
  decide (0 < d.passThroughDepth)

/-- Modelled from the spec: the driver's `RecordReplayBeginDisallowEvents`, which
opens one more disallow scope. -/
def DriverGating.BeginDisallowEvents (d : DriverGating) : DriverGating :=
  { d with disallowDepth := d.disallowDepth + 1 }

/-- Modelled from the spec: the driver's `RecordReplayEndDisallowEvents`, which
closes one disallow scope; there is no result when no scope is open. -/
def DriverGating.EndDisallowEvents (d : DriverGating) : Option DriverGating :=
  if d.disallowDepth = 0 then none
  else some { d with disallowDepth := d.disallowDepth - 1 }

/-- Modelled from the spec: the driver's `RecordReplayAreEventsDisallowed`:
"currently disallowed means disallow depth > 0". -/
def DriverGating.AreEventsDisallowed (d : DriverGating) : Bool :=
  decide (0 < d.disallowDepth)

/-- One begin or end call of the gating interface. -/
inductive GateOp where
  | BeginPassThrough
  | EndPassThrough
  | BeginDisallow
  | EndDisallow
deriving DecidableEq, Repr

/-- Whether a gating call belongs to the pass-through pair. -/
def GateOp.isPassThrough : GateOp → Bool
  | .BeginPassThrough => true
  | .EndPassThrough => true
  | _ => false

/-- One gating call made by a thread: the forwarding function of the gateway,
then the step of the driver it reaches. There is no result when the forwarding
function is fatal or the driver has no result. -/
def GateOp.run : GateOp → Gateway × DriverGating → Option (Gateway × DriverGating)
  | .BeginPassThrough, (s, d) =>
    match RecordReplayInterface_InternalBeginPassThroughThreadEvents s with
    | .returned _ s1 => some (s1, d.BeginPassThroughEvents)
    | .crashed _ _ => none
  | .EndPassThrough, (s, d) =>
    match RecordReplayInterface_InternalEndPassThroughThreadEvents s with
    | .returned _ s1 => d.EndPassThroughEvents.map fun d1 => (s1, d1)
    | .crashed _ _ => none
  | .BeginDisallow, (s, d) =>
    match RecordReplayInterface_InternalBeginDisallowThreadEvents s with
    | .returned _ s1 => some (s1, d.BeginDisallowEvents)
    | .crashed _ _ => none
  | .EndDisallow, (s, d) =>
    match RecordReplayInterface_InternalEndDisallowThreadEvents s with
    | .returned _ s1 => d.EndDisallowEvents.map fun d1 => (s1, d1)
    | .crashed _ _ => none

/-- The value a gateway operation returns: nothing, a `bool`, an `int`, a
`const char*`, or the hash code and found-match flag of a stable-hash lookup. -/
inductive Value where
  | void
  | bool (b : Bool)
  | int (i : Int)
  | cstr (p : Option CStr)
  | hash (code : Nat) (found : Bool)
deriving DecidableEq, Repr

/-- Replaces the value of an outcome. -/
def Outcome.mapValue {α β : Type} (f : α → β) : Outcome α → Outcome β
  | .returned a s => .returned (f a) s
  | .crashed why s => .crashed why s

/-- A call of one of the public operations of the file embedded above, with its
arguments and, where the driver returns a value, the value it would return. -/
inductive GatewayCall where
  | InternalBeginPassThroughThreadEvents
  | InternalEndPassThroughThreadEvents
  | InternalAreThreadEventsPassedThrough (driverResult : Bool)
  | InternalBeginDisallowThreadEvents
  | InternalEndDisallowThreadEvents
  | InternalAreThreadEventsDisallowed (driverResult : Bool)
  | InternalHasDivergedFromRecording (driverResult : Bool)
  | InternalAllowSideEffects (driverResult : Bool)
  | InternalCreateOrderedLock (driverResult : Int) (aName : CStr)
  | CreateOrderedLock (driverResult : Int) (aName : CStr)
  | InternalOrderedLock (aLock : Int)
  | OrderedLock (aLock : Int)
  | InternalOrderedUnlock (aLock : Int)
  | OrderedUnlock (aLock : Int)
  | InternalPushCrashNote (isMainThread : Bool) (aNote : Option CStr)
  | InternalPopCrashNote (isMainThread : Bool)
  | IsRecordingCreated (driverResult : Bool)
  | IsUploadingRecording
  | GetRecordingId (driverResult : Option CStr)
  | HasCheckpoint
  | CreateCheckpoint
  | MaybeCreateCheckpoint
  | RememberRecording
  | FinishRecording
  | IsTearingDownProcess
  | OnLocationChange (LOCATION_CHANGE_SAME_DOCUMENT : Nat) (aLocation : nsIURI)
      (aFlags : Nat)
  | NewStableHashTable (aTable aKeyEqualsEntry aPrivate : Nat)
  | MoveStableHashTable (aTableSrc aTableDst : Nat)
  | DeleteStableHashTable (aTable : Nat)
  | LookupStableHashCode (driverResult : Nat × Bool) (aTable aKey aUnstableHashCode : Nat)
  | StableHashTableAddEntryForLastLookup (aTable aEntry : Nat)
  | StableHashTableMoveEntry (aTable aEntrySrc aEntryDst : Nat)
  | StableHashTableDeleteEntry (aTable aEntry : Nat)

/-- Runs one public operation. -/
def GatewayCall.run : GatewayCall → Gateway → Outcome Value
  | .InternalBeginPassThroughThreadEvents, s =>
    (RecordReplayInterface_InternalBeginPassThroughThreadEvents s).mapValue fun _ => .void
  | .InternalEndPassThroughThreadEvents, s =>
    (RecordReplayInterface_InternalEndPassThroughThreadEvents s).mapValue fun _ => .void
  | .InternalAreThreadEventsPassedThrough r, s =>
    (RecordReplayInterface_InternalAreThreadEventsPassedThrough r s).mapValue .bool
  | .InternalBeginDisallowThreadEvents, s =>
    (RecordReplayInterface_InternalBeginDisallowThreadEvents s).mapValue fun _ => .void
  | .InternalEndDisallowThreadEvents, s =>
    (RecordReplayInterface_InternalEndDisallowThreadEvents s).mapValue fun _ => .void
  | .InternalAreThreadEventsDisallowed r, s =>
    (RecordReplayInterface_InternalAreThreadEventsDisallowed r s).mapValue .bool
  | .InternalHasDivergedFromRecording r, s =>
    (RecordReplayInterface_InternalHasDivergedFromRecording r s).mapValue .bool
  | .InternalAllowSideEffects r, s =>
    (RecordReplayInterface_InternalAllowSideEffects r s).mapValue .bool
  | .InternalCreateOrderedLock r aName, s =>
    (RecordReplayInterface_InternalCreateOrderedLock r aName s).mapValue .int
  | .CreateOrderedLock r aName, s =>
    (RecordReplayCreateOrderedLock r aName s).mapValue .int
  | .InternalOrderedLock aLock, s =>
    (RecordReplayInterface_InternalOrderedLock aLock s).mapValue fun _ => .void
  | .OrderedLock aLock, s => (RecordReplayOrderedLock aLock s).mapValue fun _ => .void
  | .InternalOrderedUnlock aLock, s =>
    (RecordReplayInterface_InternalOrderedUnlock aLock s).mapValue fun _ => .void
  | .OrderedUnlock aLock, s => (RecordReplayOrderedUnlock aLock s).mapValue fun _ => .void
  | .InternalPushCrashNote isMainThread aNote, s =>
    (RecordReplayInterface_InternalPushCrashNote isMainThread aNote s).mapValue fun _ => .void
  | .InternalPopCrashNote isMainThread, s =>
    (RecordReplayInterface_InternalPopCrashNote isMainThread s).mapValue fun _ => .void
  | .IsRecordingCreated r, s => (RecordReplay.IsRecordingCreated r s).mapValue .bool
  | .IsUploadingRecording, s => .returned (.bool (RecordReplay.IsUploadingRecording s)) s
  | .GetRecordingId r, s => (RecordReplay.GetRecordingId r s).mapValue .cstr
  | .HasCheckpoint, s => .returned (.bool (RecordReplay.HasCheckpoint s)) s
  | .CreateCheckpoint, s => (RecordReplay.CreateCheckpoint s).mapValue fun _ => .void
  | .MaybeCreateCheckpoint, s => (RecordReplay.MaybeCreateCheckpoint s).mapValue fun _ => .void
  | .RememberRecording, s => (RecordReplay.RememberRecording s).mapValue fun _ => .void
  | .FinishRecording, s => (RecordReplay.FinishRecording s).mapValue fun _ => .void
  | .IsTearingDownProcess, s => .returned (.bool (RecordReplay.IsTearingDownProcess s)) s
  | .OnLocationChange c aLocation aFlags, s =>
    (RecordReplay.OnLocationChange c aLocation aFlags s).mapValue fun _ => .void
  | .NewStableHashTable aTable aKeyEqualsEntry aPrivate, s =>
    (RecordReplay.NewStableHashTable aTable aKeyEqualsEntry aPrivate s).mapValue fun _ => .void
  | .MoveStableHashTable aTableSrc aTableDst, s =>
    (RecordReplay.MoveStableHashTable aTableSrc aTableDst s).mapValue fun _ => .void
  | .DeleteStableHashTable aTable, s =>
    (RecordReplay.DeleteStableHashTable aTable s).mapValue fun _ => .void
  | .LookupStableHashCode r aTable aKey aUnstableHashCode, s =>
    (RecordReplay.LookupStableHashCode r aTable aKey aUnstableHashCode s).mapValue
      fun v => .hash v.1 v.2
  | .StableHashTableAddEntryForLastLookup aTable aEntry, s =>
    (RecordReplay.StableHashTableAddEntryForLastLookup aTable aEntry s).mapValue fun _ => .void
  | .StableHashTableMoveEntry aTable aEntrySrc aEntryDst, s =>
    (RecordReplay.StableHashTableMoveEntry aTable aEntrySrc aEntryDst s).mapValue fun _ => .void
  | .StableHashTableDeleteEntry aTable aEntry, s =>
    (RecordReplay.StableHashTableDeleteEntry aTable aEntry s).mapValue fun _ => .void

/-- A driver module that exports the single name `name` at address `addr`. -/
def singleExport (name : CStr) (addr : Nat) : CStr → Option Nat :=
  fun n => if n = name then some addr else none

/-- A process started without the recording driver: every entry point is null
and every flag is clear. -/
def detachedProcess : Gateway := {}

/-- A process on a platform where recording is unsupported: nothing is attached
and `gRecordingUnsupported` holds the reason of `GetRecordingUnsupportedReason`. -/
def unsupportedProcess : Gateway :=
  { gRecordingUnsupported := some "Recording requires macOS 10.14 or higher".toList }

/-- A recording process with the driver attached and nothing done yet;
`recordAll` is the record-all-content mode. -/
def recordingProcess (recordAll : Bool) : Gateway :=
  { gIsRecordingOrReplaying := true
    gRecordAllContent := recordAll
    gRecordReplayNewCheckpoint := true
    gRememberRecording := true
    gCreateOrderedLock := true
    gOrderedLock := true
    gOrderedUnlock := true
    gSetCrashNote := true
    gBeginPassThroughEvents := true
    gEndPassThroughEvents := true
    gAreEventsPassedThrough := true
    gBeginDisallowEvents := true
    gEndDisallowEvents := true
    gAreEventsDisallowed := true
    gHasDivergedFromRecording := true
    gAllowSideEffects := true
    gOnNavigationEvent := true
    gGetRecordingId := true
    gIsRecordingCreated := true
    gWaitForRecordingCreated := true
    gFinishRecording := true
    gNewStableHashTable := true
    gMoveStableHashTable := true
    gDeleteStableHashTable := true
    gLookupStableHashCode := true
    gStableHashTableAddEntryForLastLookup := true
    gStableHashTableMoveEntry := true
    gStableHashTableDeleteEntry := true }

end RecordReplay

namespace RecordReplay

/-! ## Lemmas on the C string functions -/

theorem startsWith_iff (hay needle : CStr) :
    startsWith hay needle = true ↔ needle <+: hay := by
  induction needle generalizing hay with
  | nil => simp [startsWith]
  | cons n ns ih =>
    cases hay with
    | nil => simp [startsWith]
    | cons h hs =>
      simp only [startsWith, Bool.and_eq_true, beq_iff_eq, ih, List.cons_prefix_cons]
      constructor
      · rintro ⟨h1, h2⟩
        exact ⟨h1.symm, h2⟩
      · rintro ⟨h1, h2⟩
        exact ⟨h1.symm, h2⟩

theorem strstr_isSome_iff (hay needle : CStr) :
    (strstr hay needle).isSome = true ↔ needle <:+: hay := by
  induction hay with
  | nil =>
    cases needle <;> simp [strstr]
  | cons h hs ih =>
    have hstep : (strstr (h :: hs) needle).isSome
        = (startsWith (h :: hs) needle || (strstr hs needle).isSome) := by
      rw [strstr]
      by_cases hp : startsWith (h :: hs) needle = true
      · simp [hp]
      · simp [hp]
    rw [List.infix_cons_iff, ← ih, ← startsWith_iff, hstep, Bool.or_eq_true]

theorem strchr_append_of_not_mem (a b : CStr) (c : Char) (h : c ∉ a) :
    strchr (a ++ c :: b) c = some a.length := by
  induction a with
  | nil => simp [strchr]
  | cons x xs ih =>
    have hx : x ≠ c := fun e => h (by simp [e])
    have hxs : c ∉ xs := fun e => h (by simp [e])
    simp [strchr, hx, ih hxs]

theorem strchr_of_not_mem (a : CStr) (c : Char) (h : c ∉ a) : strchr a c = none := by
  induction a with
  | nil => simp [strchr]
  | cons x xs ih =>
    have hx : x ≠ c := fun e => h (by simp [e])
    have hxs : c ∉ xs := fun e => h (by simp [e])
    simp [strchr, hx, ih hxs]

theorem FilterMatches_eq_true_iff (aFilters : List JSFilter) (aFilename : CStr) (aLine : Nat) :
    FilterMatches aFilters aFilename aLine = true ↔
      ∃ f ∈ aFilters, f.mFilename = ['*'] ∨
        (f.mFilename <:+: aFilename ∧ f.mStartLine ≤ aLine ∧ aLine ≤ f.mEndLine) := by
  induction aFilters with
  | nil => simp [FilterMatches]
  | cons f rest ih =>
    unfold FilterMatches
    by_cases hw : f.mFilename = ['*']
    · simp [hw]
    · by_cases hm : ((strstr aFilename f.mFilename).isSome
          && decide (aLine ≥ f.mStartLine) && decide (aLine ≤ f.mEndLine)) = true
      · rw [if_neg hw, if_pos hm]
        simp only [Bool.and_eq_true, decide_eq_true_eq, strstr_isSome_iff] at hm
        simp only [List.mem_cons, exists_eq_or_imp, true_iff]
        exact Or.inl (Or.inr ⟨hm.1.1, hm.1.2, hm.2⟩)
      · rw [if_neg hw, if_neg hm, ih]
        simp only [Bool.and_eq_true, decide_eq_true_eq, strstr_isSome_iff] at hm
        simp only [List.mem_cons, exists_eq_or_imp]
        constructor
        · intro h
          exact Or.inr h
        · rintro (h | h)
          · rcases h with h | ⟨h1, h2, h3⟩
            · exact absurd h hw
            · exact absurd ⟨⟨h1, h2⟩, h3⟩ hm
          · exact h

/-! ## Decimal numerals and `atoi` -/

theorem digitChar_isdigit (k : Nat) (hk : k < 10) :
    isdigit (Nat.digitChar k) = true ∧ (Nat.digitChar k).toNat - '0'.toNat = k := by
  interval_cases k <;> decide

theorem digitsValue_of_not_digit (acc : Nat) (r : CStr)
    (hr : ∀ c ∈ r.head?, isdigit c = false) : digitsValue acc r = acc := by
  cases r with
  | nil => rfl
  | cons c cs =>
    have hc : isdigit c = false := hr c (by simp)
    simp [digitsValue, hc]

theorem toDigitsCore_spec (n : Nat) : ∀ fuel ds, n < fuel →
    ∃ l : CStr, Nat.toDigitsCore 10 fuel n ds = l ++ ds ∧ l ≠ [] ∧
      (∀ c ∈ l, isdigit c = true) ∧
      ∀ acc r, digitsValue acc (l ++ r) = digitsValue (acc * 10 ^ l.length + n) r := by
  induction n using Nat.strong_induction_on with
  | _ n ih =>
    intro fuel ds hf
    cases fuel with
    | zero => omega
    | succ f =>
      have hd := digitChar_isdigit (n % 10) (Nat.mod_lt _ (by decide))
      by_cases h0 : n / 10 = 0
      · refine ⟨[Nat.digitChar (n % 10)], ?_, by simp, ?_, ?_⟩
        · simp [Nat.toDigitsCore, h0]
        · intro c hc
          simp only [List.mem_singleton] at hc
          rw [hc]
          exact hd.1
        · intro acc r
          have hn : n % 10 = n := by omega
          simp only [List.singleton_append, digitsValue, hd.1, if_true, hd.2,
            List.length_singleton, pow_one]
          rw [hn]
          rfl
      · obtain ⟨l, hl, _, hdig, hval⟩ :=
          ih (n / 10) (by omega) f (Nat.digitChar (n % 10) :: ds) (by omega)
        refine ⟨l ++ [Nat.digitChar (n % 10)], ?_, by simp, ?_, ?_⟩
        · simp [Nat.toDigitsCore, h0, hl]
        · intro c hc
          rcases List.mem_append.mp hc with h | h
          · exact hdig c h
          · simp only [List.mem_singleton] at h
            rw [h]
            exact hd.1
        · intro acc r
          rw [List.append_assoc, hval]
          simp only [List.singleton_append, digitsValue, hd.1, if_true, hd.2,
            List.length_append, List.length_singleton, pow_succ]
          congr 1
          have := Nat.div_add_mod n 10
          ring_nf
          omega

theorem repr_spec (n : Nat) :
    (Nat.repr n).toList ≠ [] ∧ (∀ c ∈ (Nat.repr n).toList, isdigit c = true) ∧
      ∀ r, (∀ c ∈ r.head?, isdigit c = false) →
        digitsValue 0 ((Nat.repr n).toList ++ r) = n := by
  obtain ⟨l, hl, hne, hdig, hval⟩ := toDigitsCore_spec n (n + 1) [] (Nat.lt_succ_self n)
  have hrepr : (Nat.repr n).toList = l := by
    simp [Nat.repr, Nat.toDigits, hl, List.asString]
  rw [hrepr]
  refine ⟨hne, hdig, ?_⟩
  intro r hr
  rw [hval, digitsValue_of_not_digit _ r hr]
  simp

theorem isdigit_not_special (c : Char) (hc : isdigit c = true) :
    isspace c = false ∧ c ≠ '-' ∧ c ≠ '+' ∧ c ≠ '@' := by
  refine ⟨?_, ?_, ?_, ?_⟩
  · simp only [isspace, Bool.or_eq_false_iff, beq_eq_false_iff_ne]
    refine ⟨⟨⟨⟨⟨?_, ?_⟩, ?_⟩, ?_⟩, ?_⟩, ?_⟩ <;>
    · intro h
      rw [h] at hc
      revert hc
      decide
  all_goals
    intro h
    rw [h] at hc
    revert hc
    decide

theorem atoi_repr (n : Nat) (r : CStr) (hr : ∀ c ∈ r.head?, isdigit c = false) :
    atoi ((Nat.repr n).toList ++ r) = (n : Int) := by
  obtain ⟨hne, hdig, hval⟩ := repr_spec n
  have hv := hval r hr
  cases hl : (Nat.repr n).toList with
  | nil => exact absurd hl hne
  | cons c cs =>
    rw [hl] at hv hdig
    obtain ⟨hsp, hminus, hplus, _⟩ := isdigit_not_special c (hdig c (by simp))
    unfold atoi
    simp only [List.cons_append, List.dropWhile, hsp]
    split
    · next heq => exact absurd (List.cons.inj heq).1 hminus
    · next heq => exact absurd (List.cons.inj heq).1 hplus
    · show ((digitsValue 0 (c :: cs ++ r) : Nat) : Int) = n
      rw [hv]

theorem toUnsigned_natCast (n : Nat) (h : n < 2 ^ 31) : toUnsigned (n : Int) = n := by
  unfold toUnsigned
  omega

theorem at_not_mem_repr (n : Nat) : '@' ∉ (Nat.repr n).toList := by
  intro h
  exact (isdigit_not_special _ ((repr_spec n).2.1 _ h)).2.2.2 rfl

theorem split_at_sep (a b : CStr) (h : '@' ∉ a) :
    strchr (a ++ '@' :: b) '@' = some a.length ∧
      (a ++ '@' :: b).take a.length = a ∧ (a ++ '@' :: b).drop (a.length + 1) = b := by
  exact ⟨strchr_append_of_not_mem a b '@' h, by simp, by simp⟩

theorem joinFields_cons (t : CStr × Nat × Nat) (ts : List (CStr × Nat × Nat)) :
    joinFields (t :: ts) =
      t.1 ++ '@' :: ((Nat.repr t.2.1).toList ++ '@' :: ((Nat.repr t.2.2).toList ++
        (if ts = [] then [] else '@' :: joinFields ts))) := by
  cases ts with
  | nil => simp [joinFields, List.intercalate, List.intersperse]
  | cons u us => simp [joinFields, List.intercalate, List.intersperse]

theorem ParseJSFiltersLoop_joinFields : ∀ (ts : List (CStr × Nat × Nat))
    (t : CStr × Nat × Nat) (fuel : Nat) (acc : List JSFilter),
    (∀ u ∈ t :: ts, '@' ∉ u.1 ∧ u.2.1 < 2 ^ 31 ∧ u.2.2 < 2 ^ 31) → ts.length < fuel →
    ParseJSFiltersLoop fuel (joinFields (t :: ts)) acc =
      some (acc ++ (t :: ts).map fun u => JSFilter.mk u.1 u.2.1 u.2.2) := by
  intro ts
  induction ts with
  | nil =>
    intro t fuel acc h hf
    obtain ⟨hfile, hs, he⟩ := h t (by simp)
    cases fuel with
    | zero => omega
    | succ f =>
      rw [joinFields_cons, ParseJSFiltersLoop]
      obtain ⟨h1, h2, h3⟩ := split_at_sep t.1
        ((Nat.repr t.2.1).toList ++ '@' :: ((Nat.repr t.2.2).toList ++ [])) hfile
      simp only [if_true] at *
      simp only [h1, h2, h3]
      obtain ⟨k1, k2, k3⟩ := split_at_sep (Nat.repr t.2.1).toList
        ((Nat.repr t.2.2).toList ++ []) (at_not_mem_repr _)
      simp only [k1, k3]
      rw [atoi_repr _ _ (by simp; decide), atoi_repr _ _ (by simp),
        toUnsigned_natCast _ hs, toUnsigned_natCast _ he]
      simp only [List.append_nil, strchr_of_not_mem _ _ (at_not_mem_repr t.2.2)]
      simp
  | cons u us ih =>
    intro t fuel acc h hf
    obtain ⟨hfile, hs, he⟩ := h t (by simp)
    cases fuel with
    | zero => omega
    | succ f =>
      rw [joinFields_cons, ParseJSFiltersLoop]
      simp only [reduceCtorEq, if_false]
      obtain ⟨h1, h2, h3⟩ := split_at_sep t.1
        ((Nat.repr t.2.1).toList ++ '@' :: ((Nat.repr t.2.2).toList ++
          '@' :: joinFields (u :: us))) hfile
      simp only [h1, h2, h3]
      obtain ⟨k1, k2, k3⟩ := split_at_sep (Nat.repr t.2.1).toList
        ((Nat.repr t.2.2).toList ++ '@' :: joinFields (u :: us)) (at_not_mem_repr _)
      simp only [k1, k3]
      obtain ⟨m1, m2, m3⟩ := split_at_sep (Nat.repr t.2.2).toList
        (joinFields (u :: us)) (at_not_mem_repr _)
      rw [atoi_repr _ _ (by simp; decide), atoi_repr _ _ (by simp; decide),
        toUnsigned_natCast _ hs, toUnsigned_natCast _ he]
      simp only [m1, m3]
      rw [ih u f _ (fun v hv => h v (List.mem_cons_of_mem _ hv))
        (by simp only [List.length_cons] at hf; omega)]
      simp

theorem length_joinFields_cons : ∀ (ts : List (CStr × Nat × Nat)) (t : CStr × Nat × Nat),
    ts.length < (joinFields (t :: ts)).length := by
  intro ts
  induction ts with
  | nil =>
    intro t
    rw [joinFields_cons]
    simp
  | cons u us ih =>
    intro t
    have := ih u
    rw [joinFields_cons]
    simp only [reduceCtorEq, if_false, List.length_append, List.length_cons]
    omega

/-! ## The filter engine: parsing and matching -/

/-- C1: for a non-empty list of triples whose files hold no `@` and whose line
numbers are below `2^31`, parsing the `@`-joined fields (line numbers in
decimal) returns a filter set, one filter per triple, on which
`FilterMatches aFilename aLine` is true exactly when some triple has file `*`,
or has its file occurring in `aFilename` and `startLine ≤ aLine ≤ endLine`. -/
theorem ParseJSFilters_joinFields_matches (getenv : CStr → Option CStr) (aEnv : CStr)
    (triples : List (CStr × Nat × Nat)) (hne : triples ≠ [])
    (hwf : ∀ t ∈ triples, '@' ∉ t.1 ∧ t.2.1 < 2 ^ 31 ∧ t.2.2 < 2 ^ 31)
    (henv : getenv aEnv = some (joinFields triples))
    (aFilename : CStr) (aLine : Nat) :
    ∃ filters, ParseJSFilters getenv aEnv [] = some filters ∧
      filters = triples.map (fun t => JSFilter.mk t.1 t.2.1 t.2.2) ∧
      (FilterMatches filters aFilename aLine = true ↔
        ∃ t ∈ triples, t.1 = ['*'] ∨
          (t.1 <:+: aFilename ∧ t.2.1 ≤ aLine ∧ aLine ≤ t.2.2)) := by
  cases triples with
  | nil => exact absurd rfl hne
  | cons t ts =>
    have hstar : joinFields (t :: ts) ≠ ['*'] := by
      intro h
      have hlen := congrArg List.length h
      rw [joinFields_cons] at hlen
      simp only [List.length_append, List.length_cons, List.length_nil] at hlen
      omega
    refine ⟨(t :: ts).map fun u => JSFilter.mk u.1 u.2.1 u.2.2, ?_, rfl, ?_⟩
    · unfold ParseJSFilters
      rw [henv]
      simp only [hstar, if_false]
      rw [ParseJSFiltersLoop_joinFields ts t _ [] hwf
        (Nat.lt_succ_of_lt (length_joinFields_cons ts t))]
      simp
    · rw [FilterMatches_eq_true_iff]
      constructor
      · rintro ⟨f, hf, hm⟩
        obtain ⟨u, hu, rfl⟩ := List.mem_map.mp hf
        exact ⟨u, hu, hm⟩
      · rintro ⟨u, hu, hm⟩
        exact ⟨JSFilter.mk u.1 u.2.1 u.2.2, List.mem_map.mpr ⟨u, hu, rfl⟩, hm⟩

/-- C1 at the specification `foo.js@10@20`: the theorem applied to the triple
`(foo.js, 10, 20)`, and the three matches of the specification evaluated. -/
theorem ParseJSFilters_joinFields_matches_witness :
    (∃ filters,
      ParseJSFilters (singleEnv ['F'] (joinFields [("foo.js".toList, 10, 20)])) ['F'] []
          = some filters ∧
        filters = [("foo.js".toList, 10, 20)].map (fun t => JSFilter.mk t.1 t.2.1 t.2.2) ∧
        (FilterMatches filters "path/to/foo.js".toList 15 = true ↔
          ∃ t ∈ [("foo.js".toList, 10, 20)], t.1 = ['*'] ∨
            (t.1 <:+: "path/to/foo.js".toList ∧ t.2.1 ≤ 15 ∧ 15 ≤ t.2.2))) ∧
    joinFields [("foo.js".toList, 10, 20)] = "foo.js@10@20".toList ∧
    (ParseJSFilters (singleEnv ['F'] "foo.js@10@20".toList) ['F'] []).map
      (fun fs => (FilterMatches fs "path/to/foo.js".toList 15,
        FilterMatches fs "path/to/foo.js".toList 25,
        FilterMatches fs "bar.js".toList 15)) = some (true, false, false) :=
  ⟨ParseJSFilters_joinFields_matches (singleEnv ['F'] (joinFields [("foo.js".toList, 10, 20)]))
      ['F'] [("foo.js".toList, 10, 20)] (by simp) (by decide) (by simp [singleEnv])
      "path/to/foo.js".toList 15,
    by decide, by decide⟩

/-- C2: `FilterMatches` is true exactly when the list holds a filter whose file
name is `*`, or one whose file name occurs in `aFilename` with
`mStartLine ≤ aLine ≤ mEndLine`; it is false on the empty list and takes the same
value on every reordering of the list. -/
theorem FilterMatches_spec (aFilters : List JSFilter) (aFilename : CStr) (aLine : Nat) :
    (FilterMatches aFilters aFilename aLine = true ↔
      ∃ f ∈ aFilters, f.mFilename = ['*'] ∨
        (f.mFilename <:+: aFilename ∧ f.mStartLine ≤ aLine ∧ aLine ≤ f.mEndLine)) ∧
    FilterMatches [] aFilename aLine = false ∧
    ∀ reordered : List JSFilter, aFilters.Perm reordered →
      FilterMatches reordered aFilename aLine = FilterMatches aFilters aFilename aLine := by
  refine ⟨FilterMatches_eq_true_iff aFilters aFilename aLine, rfl, ?_⟩
  intro reordered hperm
  rw [Bool.eq_iff_iff, FilterMatches_eq_true_iff, FilterMatches_eq_true_iff]
  constructor
  · rintro ⟨f, hf, hm⟩
    exact ⟨f, hperm.mem_iff.mpr hf, hm⟩
  · rintro ⟨f, hf, hm⟩
    exact ⟨f, hperm.mem_iff.mp hf, hm⟩

/-- C2 on two filters and their swap. -/
theorem FilterMatches_spec_witness :
    FilterMatches [JSFilter.mk "foo.js".toList 10 20, JSFilter.mk ['*'] 0 0] "bar.js".toList 7
      = FilterMatches [JSFilter.mk ['*'] 0 0, JSFilter.mk "foo.js".toList 10 20]
          "bar.js".toList 7 :=
  (FilterMatches_spec [JSFilter.mk ['*'] 0 0, JSFilter.mk "foo.js".toList 10 20]
    "bar.js".toList 7).2.2 _ (List.Perm.swap _ _ _)

/-- C3: when the specification is exactly `*`, `ParseJSFilters` returns the
single wildcard filter, and `FilterMatches` is true on it for every file name
and every line. -/
theorem ParseJSFilters_wildcard (getenv : CStr → Option CStr) (aEnv : CStr)
    (henv : getenv aEnv = some ['*']) :
    ∃ filters, ParseJSFilters getenv aEnv [] = some filters ∧
      filters = [JSFilter.mk ['*'] 0 0] ∧
      ∀ (aFilename : CStr) (aLine : Nat), FilterMatches filters aFilename aLine = true := by
  refine ⟨[JSFilter.mk ['*'] 0 0], ?_, rfl, ?_⟩
  · unfold ParseJSFilters
    rw [henv]
    decide
  · intro aFilename aLine
    simp [FilterMatches]

/-- C3 in the environment whose variable `F` is `*`. -/
theorem ParseJSFilters_wildcard_witness :
    ∃ filters, ParseJSFilters (singleEnv ['F'] ['*']) ['F'] [] = some filters ∧
      filters = [JSFilter.mk ['*'] 0 0] ∧
      ∀ (aFilename : CStr) (aLine : Nat), FilterMatches filters aFilename aLine = true :=
  ParseJSFilters_wildcard (singleEnv ['F'] ['*']) ['F'] (by decide)

/-! ## The checkpoint state machine -/

theorem CreateCheckpoint_attached (s : Gateway) (hrec : s.gIsRecordingOrReplaying = true)
    (hnew : s.gRecordReplayNewCheckpoint = true) (hrem : s.gRememberRecording = true) :
    CreateCheckpoint s = .returned ()
      { s with
        gHasCheckpoint := true
        trace := s.trace ++ [.EnsureModuleInitialized, .MaybeSendRecordingUnusable,
          .NewCheckpoint] ++ (if s.gRecordAllContent then [] else [.RememberRecording]) } := by
  cases hall : s.gRecordAllContent <;>
    simp [CreateCheckpoint, IsRecordingOrReplaying, hrec, hnew, hrem, hall, callEntry,
      Gateway.emit, Outcome.andThen, RememberRecording]

theorem risingEdges_true_replicate (n : Nat) :
    risingEdges (true :: List.replicate n true) = 0 := by
  induction n with
  | zero => rfl
  | succ k ih => simpa [List.replicate, risingEdges] using ih

theorem CreateCheckpoint_repeat : ∀ (n : Nat) (s : Gateway),
    s.gIsRecordingOrReplaying = true → s.gRecordReplayNewCheckpoint = true →
    s.gRememberRecording = true →
    ∃ sn, repeatCall CreateCheckpoint n s = .returned () sn ∧
      sn.gHasCheckpoint = (s.gHasCheckpoint || decide (0 < n)) ∧
      checkpointRequests sn.trace = checkpointRequests s.trace + n ∧
      rememberRequests sn.trace
        = rememberRequests s.trace + (if s.gRecordAllContent then 0 else n) ∧
      (callHistory CreateCheckpoint n s).map (fun x => x.gHasCheckpoint)
        = List.replicate n true := by
  intro n
  induction n with
  | zero =>
    intro s _ _ _
    exact ⟨s, rfl, by simp, by simp, by simp, rfl⟩
  | succ k ih =>
    intro s hrec hnew hrem
    have hstep := CreateCheckpoint_attached s hrec hnew hrem
    generalize hs1 : ({ s with
        gHasCheckpoint := true
        trace := s.trace ++ [.EnsureModuleInitialized, .MaybeSendRecordingUnusable,
          .NewCheckpoint] ++ (if s.gRecordAllContent then [] else [.RememberRecording]) }
        : Gateway) = s1 at hstep
    have e1 : s1.gIsRecordingOrReplaying = true := by rw [← hs1]; exact hrec
    have e2 : s1.gRecordReplayNewCheckpoint = true := by rw [← hs1]; exact hnew
    have e3 : s1.gRememberRecording = true := by rw [← hs1]; exact hrem
    have e4 : s1.gRecordAllContent = s.gRecordAllContent := by rw [← hs1]
    have e5 : s1.gHasCheckpoint = true := by rw [← hs1]
    have e6 : s1.trace = s.trace ++ [.EnsureModuleInitialized, .MaybeSendRecordingUnusable,
          .NewCheckpoint] ++ (if s.gRecordAllContent then [] else [.RememberRecording]) := by
      rw [← hs1]
    obtain ⟨sn, h1, h2, h3, h4, h5⟩ := ih s1 e1 e2 e3
    refine ⟨sn, ?_, ?_, ?_, ?_, ?_⟩
    · rw [repeatCall, hstep]
      exact h1
    · rw [h2, e5]
      simp
    · rw [h3, e6]
      simp only [checkpointRequests, List.count_append]
      cases s.gRecordAllContent <;> simp +decide <;> omega
    · rw [h4, e6, e4]
      simp only [rememberRequests, List.count_append]
      cases s.gRecordAllContent
      · simp +decide
        omega
      · simp +decide
    · rw [callHistory, hstep]
      simp only [List.map_cons, List.replicate_succ]
      rw [h5, e5]

theorem checkpoint_needs_entry (s s1 : Gateway)
    (hinv : s.gHasCheckpoint = true → s.gRecordReplayNewCheckpoint = true) :
    (CreateCheckpoint s = .returned () s1 →
      (s1.gHasCheckpoint = true → s1.gRecordReplayNewCheckpoint = true)) ∧
    (MaybeCreateCheckpoint s = .returned () s1 →
      (s1.gHasCheckpoint = true → s1.gRecordReplayNewCheckpoint = true)) := by
  constructor
  · intro h
    cases hnew : s.gRecordReplayNewCheckpoint <;>
      cases hrec : s.gIsRecordingOrReplaying <;> cases hu : s.gRecordingUnsupported <;>
      cases hall : s.gRecordAllContent <;> cases hrem : s.gRememberRecording <;>
      simp [CreateCheckpoint, IsRecordingOrReplaying, hrec, hnew, hu, hall, hrem, callEntry,
        Gateway.emit, Outcome.andThen, RememberRecording] at h <;>
      subst h <;> simp_all
  · intro h
    cases hc : s.gHasCheckpoint <;> cases hnew : s.gRecordReplayNewCheckpoint <;>
      simp [MaybeCreateCheckpoint, HasCheckpoint, hc, hnew, callEntry, Gateway.emit] at h <;>
      subst h <;> simp_all

/-- C4: in a recording or replaying process with the driver attached, every
`CreateCheckpoint` call returns with the state HasCheckpoint, whatever it was
before, after exactly one new-checkpoint request, followed by one
remember-recording request when record-all-content is off and by none when it is
on; `n` calls issue `n` checkpoint requests, and along them the state steps from
NoCheckpoint to HasCheckpoint once (at the first call, when it started as
NoCheckpoint) and never back. -/
theorem CreateCheckpoint_recording (s : Gateway) (hrec : s.gIsRecordingOrReplaying = true)
    (hnew : s.gRecordReplayNewCheckpoint = true) (hrem : s.gRememberRecording = true) :
    CreateCheckpoint s = .returned ()
      { s with
        gHasCheckpoint := true
        trace := s.trace ++ [.EnsureModuleInitialized, .MaybeSendRecordingUnusable,
          .NewCheckpoint] ++ (if s.gRecordAllContent then [] else [.RememberRecording]) } ∧
    ∀ n : Nat, ∃ sn, repeatCall CreateCheckpoint n s = .returned () sn ∧
      sn.gHasCheckpoint = (s.gHasCheckpoint || decide (0 < n)) ∧
      checkpointRequests sn.trace = checkpointRequests s.trace + n ∧
      rememberRequests sn.trace
        = rememberRequests s.trace + (if s.gRecordAllContent then 0 else n) ∧
      (callHistory CreateCheckpoint n s).map (fun x => x.gHasCheckpoint)
        = List.replicate n true ∧
      risingEdges (s.gHasCheckpoint ::
          (callHistory CreateCheckpoint n s).map (fun x => x.gHasCheckpoint))
        = (if s.gHasCheckpoint = false ∧ 0 < n then 1 else 0) := by
  refine ⟨CreateCheckpoint_attached s hrec hnew hrem, ?_⟩
  intro n
  obtain ⟨sn, h1, h2, h3, h4, h5⟩ := CreateCheckpoint_repeat n s hrec hnew hrem
  refine ⟨sn, h1, h2, h3, h4, h5, ?_⟩
  rw [h5]
  cases hb : s.gHasCheckpoint with
  | true => simpa using risingEdges_true_replicate n
  | false =>
    cases n with
    | zero => simp [risingEdges]
    | succ k =>
      have := risingEdges_true_replicate k
      simp [List.replicate_succ, risingEdges, this]

/-- C4 on a fresh recording process, record-all-content off, three calls. -/
theorem CreateCheckpoint_recording_witness :
    CreateCheckpoint (recordingProcess false) = .returned ()
      { recordingProcess false with
        gHasCheckpoint := true
        trace := [.EnsureModuleInitialized, .MaybeSendRecordingUnusable, .NewCheckpoint,
          .RememberRecording] } ∧
    ∃ sn, repeatCall CreateCheckpoint 3 (recordingProcess false) = .returned () sn ∧
      sn.gHasCheckpoint = true ∧ checkpointRequests sn.trace = 3 ∧
      rememberRequests sn.trace = 3 ∧
      risingEdges ((recordingProcess false).gHasCheckpoint ::
          (callHistory CreateCheckpoint 3 (recordingProcess false)).map
            (fun x => x.gHasCheckpoint)) = 1 := by
  have h := CreateCheckpoint_recording (recordingProcess false) rfl rfl rfl
  refine ⟨h.1, ?_⟩
  obtain ⟨sn, h1, h2, h3, h4, _, h6⟩ := h.2 3
  exact ⟨sn, h1, h2, h3, h4, h6⟩

/-- C5: `MaybeCreateCheckpoint` issues exactly one new-checkpoint request when
the state is HasCheckpoint (the driver being attached) and makes no call at all
when it is NoCheckpoint; the checkpoint state, and every global, is left as it
was; any number of calls made while the state is NoCheckpoint changes nothing. -/
theorem MaybeCreateCheckpoint_spec (s : Gateway) :
    (s.gHasCheckpoint = true → s.gRecordReplayNewCheckpoint = true →
      MaybeCreateCheckpoint s = .returned () { s with trace := s.trace ++ [.NewCheckpoint] }) ∧
    (s.gHasCheckpoint = false → MaybeCreateCheckpoint s = .returned () s) ∧
    (s.gHasCheckpoint = false →
      ∀ n : Nat, repeatCall MaybeCreateCheckpoint n s = .returned () s) := by
  have hno : s.gHasCheckpoint = false → MaybeCreateCheckpoint s = .returned () s := by
    intro h
    simp [MaybeCreateCheckpoint, HasCheckpoint, h]
  refine ⟨?_, hno, ?_⟩
  · intro h hnew
    simp [MaybeCreateCheckpoint, HasCheckpoint, h, hnew, callEntry, Gateway.emit]
  · intro h n
    induction n with
    | zero => rfl
    | succ k ih =>
      rw [repeatCall, hno h]
      exact ih

/-- C5 on a recording process after its first checkpoint, and on a fresh one. -/
theorem MaybeCreateCheckpoint_spec_witness :
    MaybeCreateCheckpoint { recordingProcess false with gHasCheckpoint := true }
      = .returned ()
        { recordingProcess false with gHasCheckpoint := true, trace := [.NewCheckpoint] } ∧
    repeatCall MaybeCreateCheckpoint 5 (recordingProcess false)
      = .returned () (recordingProcess false) :=
  ⟨(MaybeCreateCheckpoint_spec { recordingProcess false with gHasCheckpoint := true }).1
      rfl rfl,
    (MaybeCreateCheckpoint_spec (recordingProcess false)).2.2 rfl 5⟩

/-- C6, as the claim states it, fails: in a process that is not recording and
whose platform is unsupported, two `CreateCheckpoint` calls send the
recording-unsupported report twice. -/
theorem CreateCheckpoint_reports_twice :
    unsupportedProcess.gIsRecordingOrReplaying = false ∧
    ∃ s2, repeatCall CreateCheckpoint 2 unsupportedProcess = .returned () s2 ∧
      unsupportedReports unsupportedProcess.trace = 0 ∧
      unsupportedReports s2.trace = 2 :=
  ⟨rfl, _, rfl, by decide, by decide⟩

/-- C6, amended: in a process that is not recording or replaying,
`CreateCheckpoint` returns, requests no checkpoint and leaves the checkpoint
state as it was (NoCheckpoint stays NoCheckpoint); each call sends the
recording-unsupported report once when an unsupported reason is set and never
otherwise, so `n` calls send it `n` times, respectively not at all. -/
theorem CreateCheckpoint_not_recording (s : Gateway)
    (hrec : s.gIsRecordingOrReplaying = false) (n : Nat) :
    ∃ sn, repeatCall CreateCheckpoint n s = .returned () sn ∧
      sn.gHasCheckpoint = s.gHasCheckpoint ∧
      checkpointRequests sn.trace = checkpointRequests s.trace ∧
      unsupportedReports sn.trace
        = unsupportedReports s.trace + (if s.gRecordingUnsupported.isSome then n else 0) := by
  induction n generalizing s with
  | zero => exact ⟨s, rfl, rfl, rfl, by simp⟩
  | succ k ih =>
    cases hu : s.gRecordingUnsupported with
    | none =>
      have hstep : CreateCheckpoint s = .returned () s := by
        simp [CreateCheckpoint, IsRecordingOrReplaying, hrec, hu]
      obtain ⟨sn, h1, h2, h3, h4⟩ := ih s hrec
      refine ⟨sn, ?_, h2, h3, ?_⟩
      · rw [repeatCall, hstep]
        exact h1
      · rw [h4, hu]
        simp
    | some aReason =>
      generalize hs1 : ({ s with trace := s.trace ++
        [.EnsureModuleInitialized, .SendRecordingUnsupported aReason] } : Gateway) = s1
      have hstep : CreateCheckpoint s = .returned () s1 := by
        rw [← hs1]
        simp [CreateCheckpoint, IsRecordingOrReplaying, hrec, hu, Gateway.emit]
      have e1 : s1.gIsRecordingOrReplaying = false := by rw [← hs1]; exact hrec
      have e2 : s1.gRecordingUnsupported = some aReason := by rw [← hs1]; exact hu
      have e3 : s1.gHasCheckpoint = s.gHasCheckpoint := by rw [← hs1]
      have e4 : s1.trace = s.trace ++
          [.EnsureModuleInitialized, .SendRecordingUnsupported aReason] := by rw [← hs1]
      obtain ⟨sn, h1, h2, h3, h4⟩ := ih s1 e1
      refine ⟨sn, ?_, ?_, ?_, ?_⟩
      · rw [repeatCall, hstep]
        exact h1
      · rw [h2, e3]
      · rw [h3, e4]
        simp +decide [checkpointRequests, List.count_append]
      · rw [h4, e4, e2]
        simp only [unsupportedReports, List.filter_append, List.length_append,
          Option.isSome_some, if_true]
        simp
        omega

/-- C6, amended, on the unsupported process: three calls, three reports and no
checkpoint. -/
theorem CreateCheckpoint_not_recording_witness :
    ∃ sn, repeatCall CreateCheckpoint 3 unsupportedProcess = .returned () sn ∧
      sn.gHasCheckpoint = false ∧ checkpointRequests sn.trace = 0 ∧
      unsupportedReports sn.trace = 3 := by
  obtain ⟨sn, h1, h2, h3, h4⟩ := CreateCheckpoint_not_recording unsupportedProcess rfl 3
  exact ⟨sn, h1, h2, h3, h4⟩

/-! ## The crash-note stack -/

theorem lastForwarded_append_SetCrashNote (t : List Effect) (aNote : Option CStr) :
    lastForwarded (t ++ [.SetCrashNote aNote]) = some aNote := by
  induction t with
  | nil => rfl
  | cons e es ih => simp [lastForwarded, ih]

theorem backOrNull_eq (notes : List (Option CStr)) :
    backOrNull notes = notes.getLast?.getD none := by
  cases h : notes.getLast? with
  | none =>
    have : notes = [] := List.getLast?_eq_none_iff.mp h
    simp [backOrNull, this]
  | some top =>
    have hne : notes ≠ [] := by
      intro e
      simp [e] at h
    have hlen : notes.length ≠ 0 := fun e => hne (List.length_eq_zero.mp e)
    simp [backOrNull, h, hlen]

theorem CrashNoteOp_run_hook (op : CrashNoteOp) (s s1 : Gateway)
    (hhook : s.gSetCrashNote = true)
    (hrun : op.run true s = .returned () s1) :
    s1.gSetCrashNote = true ∧ lastForwarded s1.trace = some (backOrNull s1.gCrashNotes) := by
  cases op with
  | push aNote =>
    simp only [CrashNoteOp.run, RecordReplayInterface_InternalPushCrashNote, if_true, hhook,
      callEntry, Gateway.emit, Outcome.returned.injEq, true_and] at hrun
    subst hrun
    refine ⟨rfl, ?_⟩
    simp [lastForwarded_append_SetCrashNote, backOrNull_eq]
  | pop =>
    by_cases hempty : s.gCrashNotes.length = 0
    · simp [CrashNoteOp.run, RecordReplayInterface_InternalPopCrashNote, hempty] at hrun
    · simp only [CrashNoteOp.run, RecordReplayInterface_InternalPopCrashNote, if_true, hhook,
        hempty, if_false, callEntry, Gateway.emit, Outcome.returned.injEq, true_and] at hrun
      subst hrun
      exact ⟨rfl, lastForwarded_append_SetCrashNote _ _⟩

/-- C7: `PopCrashNote` ends in the failed release assertion exactly when it is
called on the main thread with an empty crash-note stack, and returns in every
other case; on the main thread with a non-empty stack it removes exactly the top
note, forwards the new top (or null) to the hook when there is one, and changes
nothing else. -/
theorem PopCrashNote_spec (isMainThread : Bool) (s : Gateway) :
    ((∃ why s1, RecordReplayInterface_InternalPopCrashNote isMainThread s
        = .crashed why s1) ↔ (isMainThread = true ∧ s.gCrashNotes = [])) ∧
    (isMainThread = true → s.gCrashNotes = [] →
      RecordReplayInterface_InternalPopCrashNote isMainThread s
        = .crashed .releaseAssert s) ∧
    (isMainThread = false →
      RecordReplayInterface_InternalPopCrashNote isMainThread s = .returned () s) ∧
    (isMainThread = true → ∀ (rest : List (Option CStr)) (top : Option CStr),
      s.gCrashNotes = rest ++ [top] →
      RecordReplayInterface_InternalPopCrashNote isMainThread s = .returned ()
        { s with
          gCrashNotes := rest
          trace := s.trace ++
            (if s.gSetCrashNote then [.SetCrashNote (rest.getLast?.getD none)] else []) }) := by
  have hfatal : isMainThread = true → s.gCrashNotes = [] →
      RecordReplayInterface_InternalPopCrashNote isMainThread s
        = .crashed .releaseAssert s := by
    intro hm he
    simp [RecordReplayInterface_InternalPopCrashNote, hm, he]
  have hoff : isMainThread = false →
      RecordReplayInterface_InternalPopCrashNote isMainThread s = .returned () s := by
    intro hm
    simp [RecordReplayInterface_InternalPopCrashNote, hm]
  have hpop : isMainThread = true → ∀ (rest : List (Option CStr)) (top : Option CStr),
      s.gCrashNotes = rest ++ [top] →
      RecordReplayInterface_InternalPopCrashNote isMainThread s = .returned ()
        { s with
          gCrashNotes := rest
          trace := s.trace ++
            (if s.gSetCrashNote then [.SetCrashNote (rest.getLast?.getD none)] else []) } := by
    intro hm rest top hs
    cases hh : s.gSetCrashNote <;>
      simp [RecordReplayInterface_InternalPopCrashNote, hm, hs, hh, callEntry, Gateway.emit,
        backOrNull_eq]
  refine ⟨?_, hfatal, hoff, hpop⟩
  constructor
  · rintro ⟨why, s1, hc⟩
    cases hm : isMainThread with
    | false =>
      rw [hoff hm] at hc
      exact absurd hc (by simp)
    | true =>
      refine ⟨rfl, ?_⟩
      rcases List.eq_nil_or_concat s.gCrashNotes with he | ⟨rest, top, he⟩
      · exact he
      · rw [hpop hm rest top (by simpa using he)] at hc
        exact absurd hc (by simp)
  · rintro ⟨hm, he⟩
    exact ⟨_, _, hfatal hm he⟩

/-- C7 on the main thread: fatal on the empty stack, and a pop of a stack of
two notes that leaves the lower one. -/
theorem PopCrashNote_spec_witness :
    RecordReplayInterface_InternalPopCrashNote true (recordingProcess false)
      = .crashed .releaseAssert (recordingProcess false) ∧
    RecordReplayInterface_InternalPopCrashNote true
        { recordingProcess false with gCrashNotes := [some ['a'], some ['b']] }
      = .returned ()
        { recordingProcess false with
          gCrashNotes := [some ['a']]
          trace := [.SetCrashNote (some ['a'])] } :=
  ⟨(PopCrashNote_spec true (recordingProcess false)).2.1 rfl rfl,
    (PopCrashNote_spec true
      { recordingProcess false with gCrashNotes := [some ['a'], some ['b']] }).2.2.2
      rfl [some ['a']] (some ['b']) rfl⟩

/-- C8: on the main thread, for every state and every note, `PushCrashNote`
returns and the `PopCrashNote` that follows returns too, leaving the crash-note
stack, and so its top or the absence of one, as before the push. -/
theorem PushCrashNote_PopCrashNote (aNote : Option CStr) (s : Gateway) :
    ∃ s1 s2, RecordReplayInterface_InternalPushCrashNote true aNote s = .returned () s1 ∧
      RecordReplayInterface_InternalPopCrashNote true s1 = .returned () s2 ∧
      s2.gCrashNotes = s.gCrashNotes ∧
      s2.gCrashNotes.getLast? = s.gCrashNotes.getLast? := by
  cases hh : s.gSetCrashNote <;>
    simp [RecordReplayInterface_InternalPushCrashNote,
      RecordReplayInterface_InternalPopCrashNote, hh, callEntry, Gateway.emit]

/-- C9: with the crash-reporting hook present, after any non-empty sequence of
`PushCrashNote` and `PopCrashNote` calls on the main thread that has returned,
from the empty stack or any other, the value last forwarded to the hook is the
top of the crash-note stack, and null when the stack is empty. -/
theorem hook_holds_top (ops : List CrashNoteOp) (s sn : Gateway)
    (hhook : s.gSetCrashNote = true) (hops : ops ≠ [])
    (hrun : runCrashNoteOps true ops s = .returned () sn) :
    (∀ top, sn.gCrashNotes.getLast? = some top → lastForwarded sn.trace = some top) ∧
    (sn.gCrashNotes = [] → lastForwarded sn.trace = some none) := by
  have key : lastForwarded sn.trace = some (sn.gCrashNotes.getLast?.getD none) := by
    induction ops generalizing s with
    | nil => exact absurd rfl hops
    | cons op rest ih =>
      rw [runCrashNoteOps] at hrun
      cases h1 : op.run true s with
      | crashed why s1 => simp [h1, Outcome.andThen] at hrun
      | returned v s1 =>
        rw [h1] at hrun
        simp only [Outcome.andThen] at hrun
        obtain ⟨hk, hl⟩ := CrashNoteOp_run_hook op s s1 hhook h1
        cases rest with
        | nil =>
          simp only [runCrashNoteOps, Outcome.returned.injEq, true_and] at hrun
          subst hrun
          rw [hl, backOrNull_eq]
        | cons op2 rest2 => exact ih s1 hk (by simp) hrun
  constructor
  · intro top ht
    rw [key, ht]
    rfl
  · intro he
    rw [key, he]
    rfl

/-- C9 on push `a`, push `b`, pop from the empty stack: the hook holds `a`. -/
theorem hook_holds_top_witness :
    ∃ sn, runCrashNoteOps true [.push (some ['a']), .push (some ['b']), .pop]
        (recordingProcess false) = .returned () sn ∧
      sn.gCrashNotes = [some ['a']] ∧ lastForwarded sn.trace = some (some ['a']) :=
  ⟨_, rfl, rfl,
    (hook_holds_top [.push (some ['a']), .push (some ['b']), .pop] (recordingProcess false) _
      rfl (by simp) rfl).1 (some ['a']) rfl⟩

/-! ## Ordered locks without a driver -/

/-- C10: when the three ordered-lock entry points are unresolved,
`RecordReplayCreateOrderedLock` returns 0 for every name, `RecordReplayOrderedLock`
and `RecordReplayOrderedUnlock` return for every handle, and each of them, and
every sequence of them, leaves the state, trace of driver calls included, as it
was. -/
theorem ordered_locks_detached (s : Gateway) (hc : s.gCreateOrderedLock = false)
    (hl : s.gOrderedLock = false) (hu : s.gOrderedUnlock = false) :
    (∀ (driverResult : Int) (aName : CStr),
      RecordReplayCreateOrderedLock driverResult aName s = .returned 0 s) ∧
    (∀ aLock : Int, RecordReplayOrderedLock aLock s = .returned () s) ∧
    (∀ aLock : Int, RecordReplayOrderedUnlock aLock s = .returned () s) ∧
    ∀ ops : List LockOp, runLockOps ops s = .returned
      (ops.map fun op => match op with
        | .create _ _ => some 0
        | _ => none) s := by
  have h1 : ∀ (driverResult : Int) (aName : CStr),
      RecordReplayCreateOrderedLock driverResult aName s = .returned 0 s := by
    intro r aName
    simp [RecordReplayCreateOrderedLock, hc]
  have h2 : ∀ aLock : Int, RecordReplayOrderedLock aLock s = .returned () s := by
    intro aLock
    simp [RecordReplayOrderedLock, hl]
  have h3 : ∀ aLock : Int, RecordReplayOrderedUnlock aLock s = .returned () s := by
    intro aLock
    simp [RecordReplayOrderedUnlock, hu]
  refine ⟨h1, h2, h3, ?_⟩
  intro ops
  induction ops with
  | nil => rfl
  | cons op rest ih =>
    cases op with
    | create r aName => simp [runLockOps, LockOp.run, h1, Outcome.andThen, ih]
    | lock aLock => simp [runLockOps, LockOp.run, h2, Outcome.andThen, ih]
    | unlock aLock => simp [runLockOps, LockOp.run, h3, Outcome.andThen, ih]

/-- C10 on a process without a driver: a create, a lock and an unlock. -/
theorem ordered_locks_detached_witness :
    runLockOps [.create 7 "mutex".toList, .lock 0, .unlock 0, .lock 5] detachedProcess
      = .returned [some 0, none, none, none] detachedProcess :=
  (ordered_locks_detached detachedProcess rfl rfl rfl).2.2.2
    [.create 7 "mutex".toList, .lock 0, .unlock 0, .lock 5]

/-! ## Ordered-lock handles -/

/-- C12: when the process is not recording or replaying, the six table and
entry functions return with the state, trace included, as it was, and
`LookupStableHashCode` fails its release assertion; when it is recording or
replaying (the driver's entry points being resolved), each of the seven makes
exactly one call to its entry point with the arguments it was given, and
`LookupStableHashCode` returns the driver's hash code and found-match flag. -/
theorem StableHashTable_spec (s : Gateway) (driverResult : Nat × Bool)
    (aTable aKeyEqualsEntry aPrivate aTableSrc aTableDst aKey aUnstableHashCode aEntry
      aEntrySrc aEntryDst : Nat) :
    (s.gIsRecordingOrReplaying = false →
      NewStableHashTable aTable aKeyEqualsEntry aPrivate s = .returned () s ∧
      MoveStableHashTable aTableSrc aTableDst s = .returned () s ∧
      DeleteStableHashTable aTable s = .returned () s ∧
      StableHashTableAddEntryForLastLookup aTable aEntry s = .returned () s ∧
      StableHashTableMoveEntry aTable aEntrySrc aEntryDst s = .returned () s ∧
      StableHashTableDeleteEntry aTable aEntry s = .returned () s ∧
      LookupStableHashCode driverResult aTable aKey aUnstableHashCode s
        = .crashed .releaseAssert s) ∧
    (s.gIsRecordingOrReplaying = true → s.stableHashResolved = true →
      NewStableHashTable aTable aKeyEqualsEntry aPrivate s = .returned ()
        { s with trace := s.trace ++ [.NewStableHashTable aTable aKeyEqualsEntry aPrivate] } ∧
      MoveStableHashTable aTableSrc aTableDst s = .returned ()
        { s with trace := s.trace ++ [.MoveStableHashTable aTableSrc aTableDst] } ∧
      DeleteStableHashTable aTable s = .returned ()
        { s with trace := s.trace ++ [.DeleteStableHashTable aTable] } ∧
      StableHashTableAddEntryForLastLookup aTable aEntry s = .returned ()
        { s with trace := s.trace ++ [.StableHashTableAddEntryForLastLookup aTable aEntry] } ∧
      StableHashTableMoveEntry aTable aEntrySrc aEntryDst s = .returned ()
        { s with trace := s.trace ++
            [.StableHashTableMoveEntry aTable aEntrySrc aEntryDst] } ∧
      StableHashTableDeleteEntry aTable aEntry s = .returned ()
        { s with trace := s.trace ++ [.StableHashTableDeleteEntry aTable aEntry] } ∧
      LookupStableHashCode driverResult aTable aKey aUnstableHashCode s = .returned driverResult
        { s with trace := s.trace ++
            [.LookupStableHashCode aTable aKey aUnstableHashCode] }) := by
  constructor
  · intro hrec
    simp [NewStableHashTable, MoveStableHashTable, DeleteStableHashTable,
      StableHashTableAddEntryForLastLookup, StableHashTableMoveEntry,
      StableHashTableDeleteEntry, LookupStableHashCode, IsRecordingOrReplaying, hrec]
  · intro hrec hres
    simp only [Gateway.stableHashResolved, Bool.and_eq_true] at hres
    obtain ⟨⟨⟨⟨⟨⟨h1, h2⟩, h3⟩, h4⟩, h5⟩, h6⟩, h7⟩ := hres
    simp [NewStableHashTable, MoveStableHashTable, DeleteStableHashTable,
      StableHashTableAddEntryForLastLookup, StableHashTableMoveEntry,
      StableHashTableDeleteEntry, LookupStableHashCode, IsRecordingOrReplaying, hrec,
      h1, h2, h3, h4, h5, h6, h7, callEntry, callEntryFor, Gateway.emit]

/-- C12 on a process without a driver and on a recording process: the lookup is
fatal in the first and returns the driver's answer in the second. -/
theorem StableHashTable_spec_witness :
    NewStableHashTable 100 200 300 detachedProcess = .returned () detachedProcess ∧
    LookupStableHashCode (7, true) 100 5 9 detachedProcess
      = .crashed .releaseAssert detachedProcess ∧
    LookupStableHashCode (7, true) 100 5 9 (recordingProcess false) = .returned (7, true)
      { recordingProcess false with trace := [.LookupStableHashCode 100 5 9] } :=
  ⟨((StableHashTable_spec detachedProcess (7, true) 100 200 300 0 0 5 9 0 0 0).1 rfl).1,
    ((StableHashTable_spec detachedProcess (7, true) 100 200 300 0 0 5 9 0 0 0).1
      rfl).2.2.2.2.2.2,
    ((StableHashTable_spec (recordingProcess false) (7, true) 100 200 300 0 0 5 9 0 0 0).2
      rfl rfl).2.2.2.2.2.2⟩

/-! ## Binding an entry point -/

/-- C13: `LoadSymbolInternal` is fatal exactly when the driver does not export
the name and the binding is not optional; when the name is exported the entry is
the exported address; when an optional name is missing the entry is null and the
call returns. -/
theorem LoadSymbolInternal_spec (dlsym : CStr → Option Nat) (name : CStr) (aOptional : Bool) :
    ((∃ why, LoadSymbolInternal dlsym name aOptional = .error why) ↔
      (dlsym name = none ∧ aOptional = false)) ∧
    (dlsym name = none → aOptional = false →
      LoadSymbolInternal dlsym name aOptional = .error .mozCrash) ∧
    (∀ addr, dlsym name = some addr →
      LoadSymbolInternal dlsym name aOptional = .ok (some addr)) ∧
    (dlsym name = none → aOptional = true →
      LoadSymbolInternal dlsym name aOptional = .ok none) := by
  cases hd : dlsym name <;> cases aOptional <;> simp [LoadSymbolInternal, hd]

/-- C13 on a driver that exports only `RecordReplayAttach`: the required
`RecordReplayFinishRecording` is fatal, the optional `RecordReplaySetCrashNote`
is null, and `RecordReplayAttach` is bound. -/
theorem LoadSymbolInternal_spec_witness :
    LoadSymbolInternal (singleExport "RecordReplayAttach".toList 4096)
        "RecordReplayFinishRecording".toList false = .error .mozCrash ∧
    LoadSymbolInternal (singleExport "RecordReplayAttach".toList 4096)
        "RecordReplaySetCrashNote".toList true = .ok none ∧
    LoadSymbolInternal (singleExport "RecordReplayAttach".toList 4096)
        "RecordReplayAttach".toList false = .ok (some 4096) :=
  ⟨(LoadSymbolInternal_spec (singleExport "RecordReplayAttach".toList 4096)
      "RecordReplayFinishRecording".toList false).2.1 (by decide) rfl,
    (LoadSymbolInternal_spec (singleExport "RecordReplayAttach".toList 4096)
      "RecordReplaySetCrashNote".toList true).2.2.2 (by decide) rfl,
    (LoadSymbolInternal_spec (singleExport "RecordReplayAttach".toList 4096)
      "RecordReplayAttach".toList false).2.2.1 4096 (by decide)⟩

/-! ## Finishing the recording -/

/-- C15: `FinishRecording` never returns. With the driver attached it waits for
the recording-created signal, notifies the control channel, asks the driver to
finish, sets the tearing-down flag and aborts, in this order. In every run the
calls it has made are an initial part of that sequence, so the finish request
never comes before the wait, and the flag is set only on the way to `abort`. -/
theorem FinishRecording_spec (s : Gateway) :
    (∀ (v : Unit) (s1 : Gateway), FinishRecording s ≠ .returned v s1) ∧
    (s.gWaitForRecordingCreated = true → s.gFinishRecording = true →
      FinishRecording s = .crashed .abort
        { s with
          gTearingDown := true
          trace := s.trace ++
            [.WaitForRecordingCreated, .SendRecordingFinished, .FinishRecording] }) ∧
    (∀ (why : Fatal) (s1 : Gateway), FinishRecording s = .crashed why s1 →
      ∃ added, s1.trace = s.trace ++ added ∧
        added <+: [.WaitForRecordingCreated, .SendRecordingFinished, .FinishRecording] ∧
        (Effect.FinishRecording ∈ added → why = .abort) ∧
        (why = .abort → s1.gTearingDown = true) ∧
        (why ≠ .abort → s1.gTearingDown = s.gTearingDown)) := by
  cases hw : s.gWaitForRecordingCreated <;> cases hf : s.gFinishRecording <;>
    simp [FinishRecording, callEntry, Gateway.emit, Outcome.andThen, hw, hf]

/-- C15 on a recording process: the three calls in order, the flag, the abort. -/
theorem FinishRecording_spec_witness :
    FinishRecording (recordingProcess false) = .crashed .abort
      { recordingProcess false with
        gTearingDown := true
        trace := [.WaitForRecordingCreated, .SendRecordingFinished, .FinishRecording] } :=
  (FinishRecording_spec (recordingProcess false)).2.1 rfl rfl

/-! ## Navigation events -/

/-- C17: for a location whose spec `about:blank` has the scheme `about`, and with
the navigation hook resolved, `OnLocationChange` forwards the URL exactly when a
checkpoint exists, the URL can be read, the remembered last URL is not empty,
the scheme is not `about`, and the change is not a same-document change to the
remembered URL; it then remembers the forwarded URL. In every other case it
returns without any call; so neither an `about:` URL nor a URL that arrives
before the checkpoint is forwarded. -/
theorem OnLocationChange_spec (LOCATION_CHANGE_SAME_DOCUMENT : Nat) (aLocation : nsIURI)
    (aFlags : Nat) (s : Gateway) (hnav : s.gOnNavigationEvent = true)
    (habout : aLocation.GetSpec = some "about:blank".toList →
      aLocation.SchemeIs "about".toList = true) :
    ((∃ url s1, OnLocationChange LOCATION_CHANGE_SAME_DOCUMENT aLocation aFlags s
          = .returned () s1 ∧ s1.trace = s.trace ++ [.OnNavigationEvent none url]) ↔
      (s.gHasCheckpoint = true ∧ ∃ url, aLocation.GetSpec = some url ∧
        s.gLastLocationURL ≠ [] ∧ aLocation.SchemeIs "about".toList = false ∧
        ¬((aFlags &&& LOCATION_CHANGE_SAME_DOCUMENT) ≠ 0 ∧ s.gLastLocationURL = url))) ∧
    (∀ url, s.gHasCheckpoint = true → aLocation.GetSpec = some url →
      s.gLastLocationURL ≠ [] → aLocation.SchemeIs "about".toList = false →
      ¬((aFlags &&& LOCATION_CHANGE_SAME_DOCUMENT) ≠ 0 ∧ s.gLastLocationURL = url) →
      OnLocationChange LOCATION_CHANGE_SAME_DOCUMENT aLocation aFlags s = .returned ()
        { s with
          gLastLocationURL := url
          trace := s.trace ++ [.OnNavigationEvent none url] }) ∧
    (s.gHasCheckpoint = false →
      OnLocationChange LOCATION_CHANGE_SAME_DOCUMENT aLocation aFlags s = .returned () s) ∧
    (aLocation.SchemeIs "about".toList = true →
      ∃ s1, OnLocationChange LOCATION_CHANGE_SAME_DOCUMENT aLocation aFlags s
        = .returned () s1 ∧ s1.trace = s.trace) := by
  have eAbout : "about".toList = ['a', 'b', 'o', 'u', 't'] := rfl
  have eBlank : "about:blank".toList
      = ['a', 'b', 'o', 'u', 't', ':', 'b', 'l', 'a', 'n', 'k'] := rfl
  rw [eAbout, eBlank] at habout
  rw [eAbout]
  have hfwd : ∀ url, s.gHasCheckpoint = true → aLocation.GetSpec = some url →
      s.gLastLocationURL ≠ [] → aLocation.SchemeIs ['a', 'b', 'o', 'u', 't'] = false →
      ¬((aFlags &&& LOCATION_CHANGE_SAME_DOCUMENT) ≠ 0 ∧ s.gLastLocationURL = url) →
      OnLocationChange LOCATION_CHANGE_SAME_DOCUMENT aLocation aFlags s = .returned ()
        { s with
          gLastLocationURL := url
          trace := s.trace ++ [.OnNavigationEvent none url] } := by
    intro url hcp hspec hlast hscheme hsame
    have hne : s.gLastLocationURL.isEmpty = false := by
      cases hl : s.gLastLocationURL with
      | nil => exact absurd hl hlast
      | cons c cs => rfl
    have hcond : ((aFlags &&& LOCATION_CHANGE_SAME_DOCUMENT) != 0
        && s.gLastLocationURL == url) = false := by
      rw [Bool.and_eq_false_iff]
      by_cases hflag : (aFlags &&& LOCATION_CHANGE_SAME_DOCUMENT) = 0
      · left
        simp [hflag]
      · right
        have : s.gLastLocationURL ≠ url := fun e => hsame ⟨hflag, e⟩
        simpa using this
    simp only [OnLocationChange, eAbout, eBlank, hcp, hspec, hne, hscheme, hcond, hnav,
      callEntry, Gateway.emit, Outcome.andThen]
    simp
  have hquiet : ¬(s.gHasCheckpoint = true ∧ ∃ url, aLocation.GetSpec = some url ∧
        s.gLastLocationURL ≠ [] ∧ aLocation.SchemeIs ['a', 'b', 'o', 'u', 't'] = false ∧
        ¬((aFlags &&& LOCATION_CHANGE_SAME_DOCUMENT) ≠ 0 ∧ s.gLastLocationURL = url)) →
      ∃ s1, OnLocationChange LOCATION_CHANGE_SAME_DOCUMENT aLocation aFlags s
        = .returned () s1 ∧ s1.trace = s.trace := by
    intro hnot
    cases hcp : s.gHasCheckpoint with
    | false => exact ⟨s, by simp [OnLocationChange, hcp], rfl⟩
    | true =>
      cases hspec : aLocation.GetSpec with
      | none => exact ⟨s, by simp [OnLocationChange, hcp, hspec], rfl⟩
      | some url =>
        cases hscheme : aLocation.SchemeIs ['a', 'b', 'o', 'u', 't'] with
        | true =>
          cases hl : s.gLastLocationURL with
          | nil =>
            by_cases hu : url = ['a', 'b', 'o', 'u', 't', ':', 'b', 'l', 'a', 'n', 'k']
            · exact ⟨{ s with gLastLocationURL := url },
                by simp [OnLocationChange, hcp, hspec, hl, hu, hscheme], rfl⟩
            · exact ⟨s, by simp [OnLocationChange, hcp, hspec, hl, hu], rfl⟩
          | cons c cs =>
            exact ⟨s, by simp [OnLocationChange, hcp, hspec, hl, hscheme], rfl⟩
        | false =>
          cases hl : s.gLastLocationURL with
          | nil =>
            have hu : url ≠ ['a', 'b', 'o', 'u', 't', ':', 'b', 'l', 'a', 'n', 'k'] := by
              intro e
              rw [e] at hspec
              rw [habout hspec] at hscheme
              exact absurd hscheme (by simp)
            exact ⟨s, by simp [OnLocationChange, hcp, hspec, hl, hu], rfl⟩
          | cons c cs =>
            have hsame : (aFlags &&& LOCATION_CHANGE_SAME_DOCUMENT) ≠ 0 ∧
                s.gLastLocationURL = url := by
              by_contra hc
              exact hnot ⟨hcp, url, hspec, by simp [hl], hscheme, hc⟩
            rw [hl] at hsame
            obtain ⟨hflag, rfl⟩ := hsame
            exact ⟨s, by simp [OnLocationChange, hcp, hspec, hl, hscheme, hflag], rfl⟩
  refine ⟨?_, hfwd, ?_, ?_⟩
  · constructor
    · rintro ⟨url, s1, hrun, htrace⟩
      by_contra hnot
      obtain ⟨s2, hrun2, htrace2⟩ := hquiet hnot
      rw [hrun2] at hrun
      simp only [Outcome.returned.injEq, true_and] at hrun
      subst hrun
      rw [htrace2] at htrace
      simp at htrace
    · rintro ⟨hcp, url, hspec, hlast, hscheme, hsame⟩
      exact ⟨url, _, hfwd url hcp hspec hlast hscheme hsame, rfl⟩
  · intro hcp
    simp [OnLocationChange, hcp]
  · intro hscheme
    exact hquiet (fun h => by
      obtain ⟨_, url, _, _, hs, _⟩ := h
      rw [hscheme] at hs
      exact absurd hs (by simp))

/-- C17 on a process with a checkpoint that has seen `about:blank`: a change to
`https://replay.io/` is forwarded and remembered. -/
theorem OnLocationChange_spec_witness :
    OnLocationChange 1 replayLocation 0
        { recordingProcess false with
          gHasCheckpoint := true
          gLastLocationURL := "about:blank".toList }
      = .returned ()
        { recordingProcess false with
          gHasCheckpoint := true
          gLastLocationURL := "https://replay.io/".toList
          trace := [.OnNavigationEvent none "https://replay.io/".toList] } :=
  (OnLocationChange_spec 1 replayLocation 0
    { recordingProcess false with
      gHasCheckpoint := true
      gLastLocationURL := "about:blank".toList } rfl (by decide)).2.1
    "https://replay.io/".toList rfl rfl (by decide) (by decide) (by decide)

/-! ## Event gating -/

theorem exists_first_sep (v : CStr) (c : Char) (h : c ∈ v) :
    ∃ a b, v = a ++ c :: b ∧ c ∉ a := by
  induction v with
  | nil => exact absurd h (by simp)
  | cons x xs ih =>
    by_cases hx : x = c
    · exact ⟨[], xs, by simp [hx], by simp⟩
    · have hmem : c ∈ xs := by
        rcases List.mem_cons.mp h with e | e
        · exact absurd e.symm hx
        · exact e
      obtain ⟨a, b, hv, ha⟩ := ih hmem
      refine ⟨x :: a, b, by simp [hv], ?_⟩
      intro hc
      rcases List.mem_cons.mp hc with e | e
      · exact hx e.symm
      · exact ha e

theorem count_sep_split (a b : CStr) (h : '@' ∉ a) :
    (a ++ '@' :: b).count '@' = b.count '@' + 1 := by
  simp [List.count_append, List.count_eq_zero_of_not_mem h]

theorem ParseJSFiltersLoop_count : ∀ (fuel : Nat) (value : CStr) (acc : List JSFilter),
    value.length < fuel →
    ∃ added, ParseJSFiltersLoop fuel value acc = some (acc ++ added) ∧
      added.length = (value.count '@' + 1) / 3 := by
  intro fuel
  induction fuel with
  | zero =>
    intro value acc h
    omega
  | succ f ih =>
    intro value acc hlen
    rw [ParseJSFiltersLoop]
    by_cases h1 : '@' ∈ value
    · obtain ⟨a1, b1, hv1, ha1⟩ := exists_first_sep value '@' h1
      obtain ⟨e1, t1, d1⟩ := split_at_sep a1 b1 ha1
      subst hv1
      simp only [e1, t1, d1]
      by_cases h2 : '@' ∈ b1
      · obtain ⟨a2, b2, hv2, ha2⟩ := exists_first_sep b1 '@' h2
        obtain ⟨e2, _, d2⟩ := split_at_sep a2 b2 ha2
        subst hv2
        simp only [e2, d2]
        by_cases h3 : '@' ∈ b2
        · obtain ⟨a3, b3, hv3, ha3⟩ := exists_first_sep b2 '@' h3
          obtain ⟨e3, _, d3⟩ := split_at_sep a3 b3 ha3
          subst hv3
          simp only [e3, d3]
          obtain ⟨added, hrun, hcount⟩ := ih b3
            (acc ++ [JSFilter.mk a1 (toUnsigned (atoi (a2 ++ '@' :: (a3 ++ '@' :: b3))))
              (toUnsigned (atoi (a3 ++ '@' :: b3)))])
            (by
              simp only [List.length_append, List.length_cons] at hlen
              omega)
          refine ⟨JSFilter.mk a1 (toUnsigned (atoi (a2 ++ '@' :: (a3 ++ '@' :: b3))))
              (toUnsigned (atoi (a3 ++ '@' :: b3))) :: added, ?_, ?_⟩
          · rw [hrun]
            simp
          · rw [List.length_cons, hcount, count_sep_split a1 _ ha1, count_sep_split a2 _ ha2,
              count_sep_split a3 _ ha3]
            omega
        · rw [strchr_of_not_mem b2 '@' h3]
          refine ⟨[JSFilter.mk a1 (toUnsigned (atoi (a2 ++ '@' :: b2)))
              (toUnsigned (atoi b2))], rfl, ?_⟩
          rw [count_sep_split a1 _ ha1, count_sep_split a2 _ ha2,
            List.count_eq_zero_of_not_mem h3]
          rfl
      · rw [strchr_of_not_mem b1 '@' h2]
        refine ⟨[], by simp, ?_⟩
        rw [count_sep_split a1 _ ha1, List.count_eq_zero_of_not_mem h2]
        rfl
    · rw [strchr_of_not_mem value '@' h1]
      refine ⟨[], by simp, ?_⟩
      rw [List.count_eq_zero_of_not_mem h1]
      rfl

/-- C18: for every specification other than `*`, `ParseJSFilters` finishes and
appends exactly `(m + 1) / 3` filters, `m` being the number of `@` in the
specification; with fewer than two `@` it appends none, and `FilterMatches` on
the then empty filter set is false for every file name and line. -/
theorem ParseJSFilters_count (getenv : CStr → Option CStr) (aEnv value : CStr)
    (aFilters : List JSFilter) (henv : getenv aEnv = some value) (hstar : value ≠ ['*']) :
    ∃ added, ParseJSFilters getenv aEnv aFilters = some (aFilters ++ added) ∧
      added.length = (value.count '@' + 1) / 3 ∧
      (value.count '@' < 2 → added = [] ∧
        (aFilters = [] → ∀ (aFilename : CStr) (aLine : Nat),
          FilterMatches (aFilters ++ added) aFilename aLine = false)) := by
  obtain ⟨added, hrun, hcount⟩ :=
    ParseJSFiltersLoop_count (value.length + 1) value aFilters (Nat.lt_succ_self _)
  refine ⟨added, ?_, hcount, ?_⟩
  · unfold ParseJSFilters
    rw [henv]
    simp only [hstar, if_false]
    exact hrun
  · intro hm
    have hnil : added = [] := by
      apply List.eq_nil_of_length_eq_zero
      rw [hcount]
      omega
    refine ⟨hnil, ?_⟩
    intro he aFilename aLine
    rw [hnil, he]
    rfl

/-- C18 on `foo.js@10` (one `@`, no filter) and on `a@1@2@b@3@4@c` (six `@`, two
filters). -/
theorem ParseJSFilters_count_witness :
    (∃ added, ParseJSFilters (singleEnv ['F'] "foo.js@10".toList) ['F'] []
        = some ([] ++ added) ∧
      added.length = ("foo.js@10".toList.count '@' + 1) / 3 ∧
      ("foo.js@10".toList.count '@' < 2 → added = [] ∧
        (([] : List JSFilter) = [] → ∀ (aFilename : CStr) (aLine : Nat),
          FilterMatches ([] ++ added) aFilename aLine = false))) ∧
    (ParseJSFilters (singleEnv ['F'] "a@1@2@b@3@4@c".toList) ['F'] []).map List.length
      = some 2 :=
  ⟨ParseJSFilters_count (singleEnv ['F'] "foo.js@10".toList) ['F'] "foo.js@10".toList []
      (by decide) (by decide),
    by decide⟩

/-! ## Running without a driver -/

end RecordReplay
